import Mathlib

/-!
# DMA memory-region translation layer (`drivers/net/mlx5/mlx5_mr.c`)

A shallow embedding of the registration, unmap and memory-event routines of
`mlx5_mr.c`.  Every routine of the file is a function on an explicit state; the
state carries a trace that records, in program order, each primitive the routine
executes together with the shared cache as it stands right after that primitive.

Routines that `mlx5_mr.c` calls but that are defined in `mlx5_common_mr.c`
(`mlx5_mr_lookup_cache`, `mlx5_mr_lookup_list`, `mlx5_mr_insert_cache`,
`mlx5_mr_rebuild_cache`, `mlx5_mr_addr2mr_bh`, `mlx5_free_mr_by_addr`) are fields
of the structure `mlx5_common_mr`, so that every theorem quantifies over them.
`spec_common_mr` is one instance of them, written from the specification.
-/

namespace Mlx5Mr

/-! ## Constants -/

/-- The "no match" lkey, `UINT32_MAX` of `stdint.h`. -/
def UINT32_MAX : Nat := 4294967295

/-- The errno value `ENXIO`. -/
def ENXIO : Nat := 6

/-- The errno value `ENODEV`. -/
def ENODEV : Nat := 19

/-- The errno value `EINVAL`. -/
def EINVAL : Nat := 22

/-- The socket hint `SOCKET_ID_ANY`. -/
def SOCKET_ID_ANY : Int := -1

/-- The enumerator `RTE_MEM_EVENT_ALLOC` of `enum rte_mem_event`. -/
def RTE_MEM_EVENT_ALLOC : Nat := 0

/-- The enumerator `RTE_MEM_EVENT_FREE` of `enum rte_mem_event`. -/
def RTE_MEM_EVENT_FREE : Nat := 1

/-! ## Data model -/

/-- Modelled from the spec: `RegisteredRegion` (`struct mlx5_mr`, declared in
`mlx5_common_mr.h`), the extent `[start, end_)` of a registered region and its
hardware key. -/
structure mlx5_mr where
  start : Nat
  end_ : Nat
  lkey : Nat
deriving DecidableEq

/-- Modelled from the spec: `CacheEntry` (`struct mr_cache_entry`, declared in
`mlx5_common_mr.h`), the copyable projection `{ start, end, key }` of a region. -/
structure mr_cache_entry where
  start : Nat
  end_ : Nat
  lkey : Nat
deriving DecidableEq

/-- Modelled from the spec: the reader-writer lock (`rte_rwlock_t`): whether the
writer side is held, and how many readers hold it. -/
structure rte_rwlock_t where
  writer : Bool
  readers : Nat
deriving DecidableEq

/-- Modelled from the spec: Registry and Global Lookup Cache
(`struct mlx5_mr_share_cache`, declared in `mlx5_common_mr.h`): the generation
counter, the lock, the MR list and the global cache table. -/
structure mlx5_mr_share_cache where
  dev_gen : Nat
  rwlock : rte_rwlock_t
  mr_list : List mlx5_mr
  cache : List mr_cache_entry
deriving DecidableEq

/-- Modelled from the spec: `LocalCache` (`struct mlx5_mr_ctrl`, declared in
`mlx5_common_mr.h`): the entries of a queue and the generation they were copied at. -/
structure mlx5_mr_ctrl where
  cur_gen : Nat
  cache : List mr_cache_entry
deriving DecidableEq

/-- The fields of `struct rte_mempool_memhdr` that `mlx5_mr.c` reads. -/
structure rte_mempool_memhdr where
  addr : Nat
  len : Nat
deriving DecidableEq

/-- The fields of `struct rte_mempool` that `mlx5_mr.c` reads, and `mem_list`, the
memory chunks of the pool that `rte_mempool_mem_iter` walks. -/
structure rte_mempool where
  name : String
  socket_id : Int
  mem_list : List rte_mempool_memhdr := []
deriving DecidableEq

/-- The fields of `priv->config` that `mlx5_mr.c` reads. -/
structure mlx5_dev_config where
  mr_ext_memseg_en : Bool
  mr_mempool_reg_en : Bool
deriving DecidableEq

/-- The `struct mr_update_mp_data` of `mlx5_mr.c`; `dev` is the device whose state
the callback is run on, `mr_ctrl` is the local cache the pointer designates. -/
structure mr_update_mp_data where
  mr_ctrl : mlx5_mr_ctrl
  ret : Int
deriving DecidableEq

/-- What `mlx5_mr_addr2mr_bh` leaves behind: the shared cache, the local cache,
the value it stored in `rte_errno` (if it stored one) and the returned lkey. -/
structure addr2mr_result where
  share_cache : mlx5_mr_share_cache
  mr_ctrl : mlx5_mr_ctrl
  rte_errno : Option Nat
  lkey : Nat
deriving DecidableEq

/-- The routines and constants `mlx5_mr.c` uses whose definitions are outside
the file: the port limit, the width of `dev_gen`, and the routines of
`mlx5_common_mr.c`.  `mlx5_mr_lookup_list` returns a node of the list it walks
(a position in it) or nothing. -/
structure mlx5_common_mr where
  RTE_MAX_ETHPORTS : Nat
  dev_gen_bits : Nat
  mlx5_mr_lookup_cache : List mr_cache_entry → Nat → Nat
  mlx5_mr_lookup_list : (l : List mlx5_mr) → Nat → Option (Fin l.length)
  mlx5_mr_insert_cache : List mr_cache_entry → mlx5_mr → List mr_cache_entry
  mlx5_mr_rebuild_cache : List mlx5_mr → List mr_cache_entry → List mr_cache_entry
  mlx5_mr_addr2mr_bh : mlx5_mr_share_cache → mlx5_mr_ctrl → Nat → Bool → addr2mr_result
  mlx5_free_mr_by_addr : mlx5_mr_share_cache → String → Nat → Nat → mlx5_mr_share_cache

/-- The primitives a routine of `mlx5_mr.c` executes on one shared cache. -/
inductive mr_event where
  | read_lock
  | read_unlock
  | write_lock
  | write_unlock
  | lookup_cache (addr : Nat)
  | lookup_list (addr : Nat)
  | create_mr_ext (addr len : Nat) (socket_id : Int)
  | list_insert_head (mr : mlx5_mr)
  | insert_cache (mr : mlx5_mr)
  | list_remove (mr : mlx5_mr)
  | mr_free (mr : mlx5_mr)
  | rebuild_cache
  | dev_gen_inc
  | addr2mr_bh (addr : Nat)
  | mempool2mr_bh (addr : Nat)
deriving DecidableEq

/-- The state a routine runs on: the shared cache of the device (`priv->sh`),
`rte_errno`, and the trace of primitives executed so far, each with the shared
cache right after it. -/
structure mr_state where
  share_cache : mlx5_mr_share_cache
  rte_errno : Nat
  trace : List (mr_event × mlx5_mr_share_cache)
deriving DecidableEq

/-! ## Primitives -/

/-- Execute one primitive: apply its effect on the shared cache and record it. -/
def step (ev : mr_event) (f : mlx5_mr_share_cache → mlx5_mr_share_cache)
    (s : mr_state) : mr_state :=
  { s with share_cache := f s.share_cache,
           trace := s.trace ++ [(ev, f s.share_cache)] }

/-- The call `rte_rwlock_read_lock(&sh->share_cache.rwlock)`. -/
def rte_rwlock_read_lock (s : mr_state) : mr_state :=
  step .read_lock
    (fun sc => { sc with rwlock := { sc.rwlock with readers := sc.rwlock.readers + 1 } }) s

/-- The call `rte_rwlock_read_unlock(&sh->share_cache.rwlock)`. -/
def rte_rwlock_read_unlock (s : mr_state) : mr_state :=
  step .read_unlock
    (fun sc => { sc with rwlock := { sc.rwlock with readers := sc.rwlock.readers - 1 } }) s

/-- The call `rte_rwlock_write_lock(&sh->share_cache.rwlock)`. -/
def rte_rwlock_write_lock (s : mr_state) : mr_state :=
  step .write_lock (fun sc => { sc with rwlock := { sc.rwlock with writer := true } }) s

/-- The call `rte_rwlock_write_unlock(&sh->share_cache.rwlock)`. -/
def rte_rwlock_write_unlock (s : mr_state) : mr_state :=
  step .write_unlock (fun sc => { sc with rwlock := { sc.rwlock with writer := false } }) s

/-- The statement `LIST_INSERT_HEAD(&sh->share_cache.mr_list, mr, mr)`. -/
def LIST_INSERT_HEAD (mr : mlx5_mr) (s : mr_state) : mr_state :=
  step (.list_insert_head mr) (fun sc => { sc with mr_list := mr :: sc.mr_list }) s

/-- The statement `LIST_REMOVE(mr, mr)` for the node at position `i` of the list `l`
the shared cache holds. -/
def LIST_REMOVE (l : List mlx5_mr) (i : Fin l.length) (s : mr_state) : mr_state :=
  step (.list_remove (l.get i)) (fun sc => { sc with mr_list := l.eraseIdx i.val }) s

/-- The call `mlx5_mr_insert_cache(&sh->share_cache, mr)`. -/
def mlx5_mr_insert_cache (x : mlx5_common_mr) (mr : mlx5_mr) (s : mr_state) : mr_state :=
  step (.insert_cache mr)
    (fun sc => { sc with cache := x.mlx5_mr_insert_cache sc.cache mr }) s

/-- The call `mlx5_mr_free(mr, sh->share_cache.dereg_mr_cb)`: the region is
deregistered and released; the shared cache is not touched. -/
def mlx5_mr_free (mr : mlx5_mr) (s : mr_state) : mr_state :=
  step (.mr_free mr) id s

/-- The call `mlx5_mr_rebuild_cache(&sh->share_cache)`. -/
def mlx5_mr_rebuild_cache (x : mlx5_common_mr) (s : mr_state) : mr_state :=
  step .rebuild_cache
    (fun sc => { sc with cache := x.mlx5_mr_rebuild_cache sc.mr_list sc.cache }) s

/-- The statement `++sh->share_cache.dev_gen` on a counter of `dev_gen_bits` bits. -/
def dev_gen_inc (x : mlx5_common_mr) (s : mr_state) : mr_state :=
  step .dev_gen_inc
    (fun sc => { sc with dev_gen := (sc.dev_gen + 1) % 2 ^ x.dev_gen_bits }) s

/-! ## The routines of `mlx5_mr.c` -/

/-- The function `dev_to_eth_dev`; `rte_eth_find_next_of` is the port the call
`rte_eth_find_next_of(0, dev)` returned. -/
def dev_to_eth_dev (x : mlx5_common_mr) (rte_eth_find_next_of : Nat) : Option Nat :=
  let port_id := rte_eth_find_next_of
  if port_id = x.RTE_MAX_ETHPORTS then none else some port_id

/-- The function `mlx5_net_dma_map`; `s` is the state of the device the port
belongs to and `reg` is what the call of `mlx5_create_mr_ext` returns. -/
def mlx5_net_dma_map (x : mlx5_common_mr) (rte_eth_find_next_of : Nat)
    (reg : Option mlx5_mr) (s : mr_state) (addr _iova len : Nat) : mr_state × Int :=
  match dev_to_eth_dev x rte_eth_find_next_of with
  | none => ({ s with rte_errno := ENODEV }, -1)
  | some _ =>
    let s := step (.create_mr_ext addr len SOCKET_ID_ANY) id s
    match reg with
    | none => ({ s with rte_errno := EINVAL }, -1)
    | some mr =>
      let s := rte_rwlock_write_lock s
      let s := LIST_INSERT_HEAD mr s
      let s := mlx5_mr_insert_cache x mr s
      let s := rte_rwlock_write_unlock s
      (s, 0)

/-- The function `mlx5_net_dma_unmap`; `s` is the state of the device the port
belongs to. -/
def mlx5_net_dma_unmap (x : mlx5_common_mr) (rte_eth_find_next_of : Nat)
    (s : mr_state) (addr _iova _len : Nat) : mr_state × Int :=
  match dev_to_eth_dev x rte_eth_find_next_of with
  | none => ({ s with rte_errno := ENODEV }, -1)
  | some _ =>
    let s := rte_rwlock_write_lock s
    let s := step (.lookup_list addr) id s
    match x.mlx5_mr_lookup_list s.share_cache.mr_list addr with
    | none =>
      let s := rte_rwlock_write_unlock s
      ({ s with rte_errno := EINVAL }, -1)
    | some i =>
      let mr := s.share_cache.mr_list.get i
      let s := LIST_REMOVE s.share_cache.mr_list i s
      let s := mlx5_mr_free mr s
      let s := mlx5_mr_rebuild_cache x s
      let s := dev_gen_inc x s
      let s := rte_rwlock_write_unlock s
      (s, 0)

/-- The function `mlx5_mr_update_ext_mp_cb`; `s` is the state of `data->dev` and
`reg` is what the call of `mlx5_create_mr_ext` returns.  The debug assertion on the
process type and the log calls have no effect on the state and are left out. -/
def mlx5_mr_update_ext_mp_cb (x : mlx5_common_mr) (config : mlx5_dev_config)
    (reg : Option mlx5_mr) (mp : rte_mempool) (s : mr_state) (data : mr_update_mp_data)
    (memhdr : rte_mempool_memhdr) (_mem_idx : Nat) : mr_state × mr_update_mp_data :=
  let addr := memhdr.addr
  let len := memhdr.len
  let s := rte_rwlock_read_lock s
  let lkey := x.mlx5_mr_lookup_cache s.share_cache.cache addr
  let s := step (.lookup_cache addr) id s
  let s := rte_rwlock_read_unlock s
  if lkey ≠ UINT32_MAX then (s, data)
  else
    let s := step (.create_mr_ext addr len mp.socket_id) id s
    match reg with
    | none => (s, { data with ret := -1 })
    | some mr =>
      let s := rte_rwlock_write_lock s
      let s := LIST_INSERT_HEAD mr s
      let s := mlx5_mr_insert_cache x mr s
      let s := rte_rwlock_write_unlock s
      let r := x.mlx5_mr_addr2mr_bh s.share_cache data.mr_ctrl addr config.mr_ext_memseg_en
      let s := step (.addr2mr_bh addr) (fun _ => r.share_cache) s
      ({ s with rte_errno := r.rte_errno.getD s.rte_errno }, { data with mr_ctrl := r.mr_ctrl })

/-- The state `mlx5_mr_update_ext_mp_cb` is in when the write lock is released on
its registering path. -/
def cb_inserted (x : mlx5_common_mr) (mr : mlx5_mr) (mp : rte_mempool) (s : mr_state)
    (memhdr : rte_mempool_memhdr) : mr_state :=
  rte_rwlock_write_unlock (mlx5_mr_insert_cache x mr (LIST_INSERT_HEAD mr
    (rte_rwlock_write_lock (step (.create_mr_ext memhdr.addr memhdr.len mp.socket_id) id
      (rte_rwlock_read_unlock (step (.lookup_cache memhdr.addr) id
        (rte_rwlock_read_lock s)))))))

/-! ## The memory event callback -/

/-- The fields of `struct mlx5_dev_ctx_shared` that `mlx5_mr_mem_event_cb` reads. -/
structure mlx5_dev_ctx_shared where
  ibdev_name : String
  share_cache : mlx5_mr_share_cache
deriving DecidableEq

/-- The primitives `mlx5_mr_mem_event_cb` executes. -/
inductive mem_event_step where
  | write_lock
  | free_mr_by_addr (ibdev_name : String) (addr len : Nat)
  | write_unlock
deriving DecidableEq

/-- The fields of `mlx5_shared_data` that `mlx5_mr_mem_event_cb` uses, and the
trace of primitives executed so far, each with `mem_event_rwlock` right after it. -/
structure mlx5_shared_data where
  mem_event_rwlock : rte_rwlock_t
  mem_event_cb_list : List mlx5_dev_ctx_shared
  trace : List (mem_event_step × rte_rwlock_t)
deriving DecidableEq

/-- The loop `LIST_FOREACH(sh, dev_list, mem_event_cb) mlx5_free_mr_by_addr(...)`:
the device contexts after the loop and the calls made, in order. -/
def LIST_FOREACH_free_mr_by_addr (x : mlx5_common_mr) (addr len : Nat) (lk : rte_rwlock_t) :
    List mlx5_dev_ctx_shared →
      List mlx5_dev_ctx_shared × List (mem_event_step × rte_rwlock_t)
  | [] => ([], [])
  | sh :: rest =>
    let sh1 : mlx5_dev_ctx_shared :=
      { sh with share_cache := x.mlx5_free_mr_by_addr sh.share_cache sh.ibdev_name addr len }
    let r := LIST_FOREACH_free_mr_by_addr x addr len lk rest
    (sh1 :: r.1, (.free_mr_by_addr sh.ibdev_name addr len, lk) :: r.2)

/-- The function `mlx5_mr_mem_event_cb`; `event_type` is the value of the
`enum rte_mem_event` argument.  The debug assertion on the process type has no
effect on the state and is left out. -/
def mlx5_mr_mem_event_cb (x : mlx5_common_mr) (event_type : Nat) (addr len : Nat)
    (d : mlx5_shared_data) : mlx5_shared_data :=
  if event_type = RTE_MEM_EVENT_FREE then
    let lk : rte_rwlock_t := { d.mem_event_rwlock with writer := true }
    let r := LIST_FOREACH_free_mr_by_addr x addr len lk d.mem_event_cb_list
    let lk1 : rte_rwlock_t := { lk with writer := false }
    { mem_event_rwlock := lk1,
      mem_event_cb_list := r.1,
      trace := d.trace ++ [(.write_lock, lk)] ++ r.2 ++ [(.write_unlock, lk1)] }
  else d

/-! ## Sequences of calls -/

/-- One call of a routine that changes the shared cache, with its arguments. -/
inductive mr_call where
  | dma_map (rte_eth_find_next_of : Nat) (reg : Option mlx5_mr) (addr iova len : Nat)
  | dma_unmap (rte_eth_find_next_of : Nat) (addr iova len : Nat)
  | update_ext_mp_cb (reg : Option mlx5_mr) (mp : rte_mempool) (data : mr_update_mp_data)
      (memhdr : rte_mempool_memhdr) (mem_idx : Nat)
deriving DecidableEq

/-- The state after one call. -/
def run_call (x : mlx5_common_mr) (config : mlx5_dev_config) (s : mr_state) :
    mr_call → mr_state
  | .dma_map p reg addr iova len => (mlx5_net_dma_map x p reg s addr iova len).1
  | .dma_unmap p addr iova len => (mlx5_net_dma_unmap x p s addr iova len).1
  | .update_ext_mp_cb reg mp data memhdr mem_idx =>
    (mlx5_mr_update_ext_mp_cb x config reg mp s data memhdr mem_idx).1

/-- The state after a sequence of calls, run one after the other. -/
def run_calls (x : mlx5_common_mr) (config : mlx5_dev_config) (s : mr_state) :
    List mr_call → mr_state
  | [] => s
  | c :: cs => run_calls x config (run_call x config s c) cs

/-- Whether a call is a `mlx5_net_dma_unmap`. -/
def mr_call.is_unmap : mr_call → Bool
  | .dma_unmap _ _ _ _ => true
  | _ => false

/-! ## Properties of regions, lists and caches -/

/-- The extent of the region contains the address. -/
def mlx5_mr.contains (mr : mlx5_mr) (addr : Nat) : Prop :=
  mr.start ≤ addr ∧ addr < mr.end_

/-- The extent of the region and the range `[addr, addr + len)` share an address. -/
def mlx5_mr.intersects (mr : mlx5_mr) (addr len : Nat) : Prop :=
  ∃ a, mr.contains a ∧ addr ≤ a ∧ a < addr + len

/-- Two regions whose extents share no address. -/
def mr_disjoint (a b : mlx5_mr) : Prop :=
  a.end_ ≤ b.start ∨ b.end_ ≤ a.start

/-- Coherence of a global cache with an MR list: a lookup that returns a key other
than `UINT32_MAX` is backed by a region of the list that contains the address and
has that key. -/
def coherent (x : mlx5_common_mr) (l : List mlx5_mr) (c : List mr_cache_entry) : Prop :=
  ∀ addr, x.mlx5_mr_lookup_cache c addr ≠ UINT32_MAX →
    ∃ mr ∈ l, mr.contains addr ∧ mr.lkey = x.mlx5_mr_lookup_cache c addr

/-- The list lookup returns a region that contains the address it was asked for. -/
def lookup_list_sound (x : mlx5_common_mr) : Prop :=
  ∀ (l : List mlx5_mr) (addr : Nat) (i : Fin l.length),
    x.mlx5_mr_lookup_list l addr = some i → (l.get i).contains addr

/-- The cache insert projects the list faithfully: the cache stays coherent when a
region is put on the list and inserted into the cache. -/
def insert_faithful (x : mlx5_common_mr) : Prop :=
  ∀ l c mr, coherent x l c → coherent x (mr :: l) (x.mlx5_mr_insert_cache c mr)

/-- The cache rebuild projects the list faithfully: the rebuilt cache is coherent
with the list it was rebuilt from. -/
def rebuild_faithful (x : mlx5_common_mr) : Prop :=
  ∀ l c, coherent x l (x.mlx5_mr_rebuild_cache l c)

/-- The bottom-half translation keeps a coherent shared cache coherent. -/
def addr2mr_faithful (x : mlx5_common_mr) : Prop :=
  ∀ sc ctrl addr en, coherent x sc.mr_list sc.cache →
    coherent x (x.mlx5_mr_addr2mr_bh sc ctrl addr en).share_cache.mr_list
      (x.mlx5_mr_addr2mr_bh sc ctrl addr en).share_cache.cache

/-- The bottom-half translation leaves the generation counter as it is. -/
def addr2mr_keeps_gen (x : mlx5_common_mr) : Prop :=
  ∀ sc ctrl addr en, (x.mlx5_mr_addr2mr_bh sc ctrl addr en).share_cache.dev_gen = sc.dev_gen

/-- Coherence along a trace: every recorded point at which the write lock is not
held shows a global cache that is coherent with the MR list. -/
def trace_coherent (x : mlx5_common_mr) (t : List (mr_event × mlx5_mr_share_cache)) : Prop :=
  ∀ p ∈ t, p.2.rwlock.writer = false → coherent x p.2.mr_list p.2.cache

/-- The events of a trace, without the snapshots. -/
def events (t : List (mr_event × mlx5_mr_share_cache)) : List mr_event :=
  t.map Prod.fst

/-- The events of a trace, each with whether the write lock is held right after it. -/
def lock_view (t : List (mr_event × mlx5_mr_share_cache)) : List (mr_event × Bool) :=
  t.map (fun p => (p.1, p.2.rwlock.writer))

/-! ## An instance of the external routines, written from the specification -/

/-- Modelled from the spec: the `CacheEntry` projection of a `RegisteredRegion`
(done inside `mlx5_mr_insert_cache`, which is not part of the sources). -/
def mr_cache_entry.of_mr (mr : mlx5_mr) : mr_cache_entry :=
  { start := mr.start, end_ := mr.end_, lkey := mr.lkey }

/-- The order of cache entries by start address. -/
def entry_le (a b : mr_cache_entry) : Prop := a.start ≤ b.start

instance entry_le_decidable : DecidableRel entry_le :=
  fun a b => inferInstanceAs (Decidable (a.start ≤ b.start))

/-- Modelled from the spec: Global Lookup Cache `lookup(addr) -> key|Miss`
(`mlx5_mr_lookup_cache`, not part of the sources): the key of the entry whose
`[start, end)` contains `addr`, or `UINT32_MAX`. -/
def spec_lookup_cache (c : List mr_cache_entry) (addr : Nat) : Nat :=
  match c.find? (fun e => decide (e.start ≤ addr) && decide (addr < e.end_)) with
  | some e => e.lkey
  | none => UINT32_MAX

/-- Modelled from the spec: Registry lookup by address (`mlx5_mr_lookup_list`, not
part of the sources): the first region of the list whose extent contains `addr`. -/
def spec_lookup_list : (l : List mlx5_mr) → Nat → Option (Fin l.length)
  | [], _ => none
  | mr :: rest, addr =>
    if mr.start ≤ addr ∧ addr < mr.end_ then some ⟨0, Nat.succ_pos _⟩
    else (spec_lookup_list rest addr).map Fin.succ

/-- Modelled from the spec: insertion of a region's entry into the address-sorted
Global Lookup Cache (`mlx5_mr_insert_cache`, not part of the sources). -/
def spec_insert_cache (c : List mr_cache_entry) (mr : mlx5_mr) : List mr_cache_entry :=
  List.orderedInsert entry_le (mr_cache_entry.of_mr mr) c

/-- Modelled from the spec: Global Lookup Cache `rebuild(registry_snapshot)`
(`mlx5_mr_rebuild_cache`, not part of the sources): the entries of the current
Registry contents, sorted by `start`. -/
def spec_rebuild_cache (l : List mlx5_mr) (_c : List mr_cache_entry) : List mr_cache_entry :=
  List.insertionSort entry_le (l.map mr_cache_entry.of_mr)

/-- Modelled from the spec: Translation Orchestrator steps 1 to 3
(`mlx5_mr_addr2mr_bh`, not part of the sources): a local hit returns the key; on a
local miss a stale local cache is cleared and the global cache is looked up, a hit
there is copied into the local cache with the observed generation.  A global miss
is reported as `UINT32_MAX` with `ENXIO`; steps 4 to 6 need the buffer pool and
hardware collaborators and are left out. -/
def spec_addr2mr_bh (sc : mlx5_mr_share_cache) (ctrl : mlx5_mr_ctrl) (addr : Nat)
    (_en : Bool) : addr2mr_result :=
  match ctrl.cache.find? (fun e => decide (e.start ≤ addr) && decide (addr < e.end_)) with
  | some e => { share_cache := sc, mr_ctrl := ctrl, rte_errno := none, lkey := e.lkey }
  | none =>
    let ctrl1 : mlx5_mr_ctrl :=
      if ctrl.cur_gen < sc.dev_gen then { cur_gen := sc.dev_gen, cache := [] } else ctrl
    match sc.cache.find? (fun e => decide (e.start ≤ addr) && decide (addr < e.end_)) with
    | some e =>
      { share_cache := sc,
        mr_ctrl := { cur_gen := max ctrl1.cur_gen sc.dev_gen, cache := e :: ctrl1.cache },
        rte_errno := none, lkey := e.lkey }
    | none => { share_cache := sc, mr_ctrl := ctrl1, rte_errno := some ENXIO, lkey := UINT32_MAX }

/-- Modelled from the spec: Memory-Event Listener removal (`mlx5_free_mr_by_addr`,
not part of the sources): every region whose extent intersects `[addr, addr + len)`
is removed, the global cache is rebuilt and the generation is incremented. -/
def spec_free_mr_by_addr (sc : mlx5_mr_share_cache) (_ibdev_name : String)
    (addr len : Nat) : mlx5_mr_share_cache :=
  let l := sc.mr_list.filter
    (fun mr => !(decide (mr.start < addr + len) && decide (addr < mr.end_)))
  { sc with mr_list := l, cache := spec_rebuild_cache l sc.cache, dev_gen := sc.dev_gen + 1 }

/-- The external routines as the specification describes them, with 32 ports and
a 32-bit generation counter. -/
def spec_common_mr : mlx5_common_mr :=
  { RTE_MAX_ETHPORTS := 32,
    dev_gen_bits := 32,
    mlx5_mr_lookup_cache := spec_lookup_cache,
    mlx5_mr_lookup_list := spec_lookup_list,
    mlx5_mr_insert_cache := spec_insert_cache,
    mlx5_mr_rebuild_cache := spec_rebuild_cache,
    mlx5_mr_addr2mr_bh := spec_addr2mr_bh,
    mlx5_free_mr_by_addr := spec_free_mr_by_addr }

/-! ## Concrete states used in examples -/

/-- An unlocked lock. -/
def lock_free : rte_rwlock_t := { writer := false, readers := 0 }

/-- The state of a device with no region registered. -/
def state_empty : mr_state :=
  { share_cache := { dev_gen := 0, rwlock := lock_free, mr_list := [], cache := [] },
    rte_errno := 0, trace := [] }

/-- The region `[0x1000, 0x2000)` with key 7. -/
def mr_a : mlx5_mr := { start := 0x1000, end_ := 0x2000, lkey := 7 }

/-- The region `[0x2000, 0x3000)` with key 9. -/
def mr_b : mlx5_mr := { start := 0x2000, end_ := 0x3000, lkey := 9 }

/-- A second registration of `[0x1000, 0x2000)`, with key 8. -/
def mr_a2 : mlx5_mr := { start := 0x1000, end_ := 0x2000, lkey := 8 }

/-- The state of a device that holds `mr_a` and `mr_b`, with a global cache built
from them. -/
def state_ab : mr_state :=
  { share_cache :=
      { dev_gen := 0, rwlock := lock_free, mr_list := [mr_a, mr_b],
        cache := [mr_cache_entry.of_mr mr_a, mr_cache_entry.of_mr mr_b] },
    rte_errno := 0, trace := [] }

/-- A device configuration. -/
def config_example : mlx5_dev_config := { mr_ext_memseg_en := false, mr_mempool_reg_en := false }

/-- A mempool, on socket 0. -/
def mp_example : rte_mempool := { name := "mp", socket_id := 0 }

/-- The callback data of a queue with an empty local cache. -/
def data_example : mr_update_mp_data := { mr_ctrl := { cur_gen := 0, cache := [] }, ret := 0 }

/-- The memory chunk `[0x2000, 0x3000)`. -/
def memhdr_b : rte_mempool_memhdr := { addr := 0x2000, len := 0x1000 }

/-- A map of `[0x1000, 0x2000)`, a callback for the chunk `[0x2000, 0x3000)` and an
unmap of `0x1000`. -/
def calls_example : List mr_call :=
  [.dma_map 0 (some mr_a) 0x1000 0 0x1000,
   .update_ext_mp_cb (some mr_b) mp_example data_example memhdr_b 0,
   .dma_unmap 0 0x1000 0 0x1000]

/-- Two device contexts, the first holding `mr_a` and `mr_b`, the second `mr_a`. -/
def shared_data_example : mlx5_shared_data :=
  { mem_event_rwlock := lock_free,
    mem_event_cb_list :=
      [{ ibdev_name := "mlx5_0",
         share_cache := { dev_gen := 0, rwlock := lock_free, mr_list := [mr_a, mr_b],
                          cache := [mr_cache_entry.of_mr mr_a, mr_cache_entry.of_mr mr_b] } },
       { ibdev_name := "mlx5_1",
         share_cache := { dev_gen := 0, rwlock := lock_free, mr_list := [mr_a],
                          cache := [mr_cache_entry.of_mr mr_a] } }],
    trace := [] }

/-- The external routines of the specification with a generation counter of `w` bits. -/
def spec_common_mr_bits (w : Nat) : mlx5_common_mr :=
  { spec_common_mr with dev_gen_bits := w }

/-- The state of a device that holds `mr_a`, with the largest generation a counter of
`w` bits can hold. -/
def state_gen_max (w : Nat) : mr_state :=
  { share_cache :=
      { dev_gen := 2 ^ w - 1, rwlock := lock_free, mr_list := [mr_a],
        cache := [mr_cache_entry.of_mr mr_a] },
    rte_errno := 0, trace := [] }

/-- The state of a device that holds `mr_a` only. -/
def state_a : mr_state :=
  { share_cache :=
      { dev_gen := 0, rwlock := lock_free, mr_list := [mr_a],
        cache := [mr_cache_entry.of_mr mr_a] },
    rte_errno := 0, trace := [] }

/-- Whether an event is an insertion into the MR list. -/
def mr_event.is_list_insert_head : mr_event → Bool
  | .list_insert_head _ => true
  | _ => false

/-- Whether an event is a call of `mlx5_create_mr_ext`. -/
def mr_event.is_create_mr_ext : mr_event → Bool
  | .create_mr_ext _ _ _ => true
  | _ => false

/-- The memory chunk `[0x1000, 0x2000)`. -/
def memhdr_a : rte_mempool_memhdr := { addr := 0x1000, len := 0x1000 }

/-! ## The transmit-side translation -/

/-- The enumerator `RTE_PROC_PRIMARY` of `enum rte_proc_type_t`. -/
def RTE_PROC_PRIMARY : Int := 0

/-- What `mlx5_tx_mb2mr_bh` reads of a `struct rte_mbuf`: the buffer address,
whether `RTE_MBUF_HAS_EXTBUF(mb)` holds, whether `mb->shinfo->free_cb` is
`mlx5_mprq_buf_free_cb`, the pool `buf->mp` of the MPRQ buffer behind
`mb->shinfo->fcb_opaque` (`none` for `NULL`), and the pool `mlx5_mb2mp(mb)` returns. -/
structure rte_mbuf where
  buf_addr : Nat
  has_extbuf : Bool
  free_cb_is_mprq : Bool
  mprq_buf_mp : Option rte_mempool
  mb2mp : rte_mempool
deriving DecidableEq

/-- The state a transmit queue translates on: the state of its device and the
local cache `txq->mr_ctrl`. -/
structure tx_state where
  sh : mr_state
  mr_ctrl : mlx5_mr_ctrl
deriving DecidableEq

/-- Modelled from the spec: the buffer pool query `extents(pool)`
(`rte_mempool_mem_iter`, not part of the sources): the callback is called once for
each memory chunk of the pool, in order, with the index of the chunk; the result is
the final callback argument and the number of chunks. -/
def rte_mempool_mem_iter {σ : Type} (mp : rte_mempool)
    (mem_cb : rte_mempool → σ → rte_mempool_memhdr → Nat → σ) (mem_cb_arg : σ) : σ × Nat :=
  mp.mem_list.foldl (fun acc memhdr => (mem_cb mp acc.1 memhdr acc.2, acc.2 + 1))
    (mem_cb_arg, 0)

/-- The function `mlx5_tx_addr2mr_bh`. -/
def mlx5_tx_addr2mr_bh (x : mlx5_common_mr) (config : mlx5_dev_config) (st : tx_state)
    (addr : Nat) : tx_state × Nat :=
  let r := x.mlx5_mr_addr2mr_bh st.sh.share_cache st.mr_ctrl addr config.mr_ext_memseg_en
  let s := step (.addr2mr_bh addr) (fun _ => r.share_cache) st.sh
  ({ sh := { s with rte_errno := r.rte_errno.getD s.rte_errno }, mr_ctrl := r.mr_ctrl },
    r.lkey)

/-- The function `mlx5_mr_update_ext_mp`; `regs n` is what the call of
`mlx5_create_mr_ext` for chunk `n` returns.  The result is the state, the local
cache, and `data.ret` converted to the return type `uint32_t`. -/
def mlx5_mr_update_ext_mp (x : mlx5_common_mr) (config : mlx5_dev_config)
    (regs : Nat → Option mlx5_mr) (s : mr_state) (mr_ctrl : mlx5_mr_ctrl)
    (mp : rte_mempool) : mr_state × mlx5_mr_ctrl × Nat :=
  let data : mr_update_mp_data := { mr_ctrl := mr_ctrl, ret := 0 }
  let r := rte_mempool_mem_iter mp
    (fun mp (a : mr_state × mr_update_mp_data) memhdr mem_idx =>
      mlx5_mr_update_ext_mp_cb x config (regs mem_idx) mp a.1 a.2 memhdr mem_idx)
    (s, data)
  (r.1.1, r.1.2.mr_ctrl, (r.1.2.ret % 2 ^ 32).toNat)

/-- The function `mlx5_tx_update_ext_mp`; `rte_eal_process_type` is what the call of
that name returns. -/
def mlx5_tx_update_ext_mp (x : mlx5_common_mr) (config : mlx5_dev_config)
    (rte_eal_process_type : Int) (regs : Nat → Option mlx5_mr) (st : tx_state)
    (addr : Nat) (mp : rte_mempool) : tx_state × Nat :=
  if rte_eal_process_type ≠ RTE_PROC_PRIMARY then (st, UINT32_MAX)
  else
    let r := mlx5_mr_update_ext_mp x config regs st.sh st.mr_ctrl mp
    mlx5_tx_addr2mr_bh x config { sh := r.1, mr_ctrl := r.2.1 } addr

/-- The mempool `mlx5_tx_mb2mr_bh` recovers for an mbuf (the local variable `mp`
after lines 118 to 124). -/
def mb2mr_mp (mb : rte_mbuf) : Option rte_mempool :=
  if !mb.has_extbuf then some mb.mb2mp
  else if mb.free_cb_is_mprq then mb.mprq_buf_mp
  else none

/-- The call `mlx5_mr_mempool2mr_bh(&priv->sh->share_cache, mr_ctrl, mp, addr)` of
`mlx5_tx_mb2mr_bh`; the routine itself is the parameter `mempool2mr`. -/
def mb2mr_mempool (mempool2mr : mlx5_mr_share_cache → mlx5_mr_ctrl → rte_mempool → Nat →
      addr2mr_result) (st : tx_state) (mp : rte_mempool) (addr : Nat) : tx_state × Nat :=
  let r := mempool2mr st.sh.share_cache st.mr_ctrl mp addr
  let s := step (.mempool2mr_bh addr) (fun _ => r.share_cache) st.sh
  ({ sh := { s with rte_errno := r.rte_errno.getD s.rte_errno }, mr_ctrl := r.mr_ctrl },
    r.lkey)

/-- The generic mechanism of `mlx5_tx_mb2mr_bh` (lines 137 to 142). -/
def mb2mr_generic (x : mlx5_common_mr) (config : mlx5_dev_config)
    (rte_eal_process_type : Int) (regs : Nat → Option mlx5_mr) (st : tx_state)
    (mb : rte_mbuf) : tx_state × Nat :=
  let r := mlx5_tx_addr2mr_bh x config st mb.buf_addr
  if r.2 = UINT32_MAX ∧ r.1.sh.rte_errno = ENXIO then
    mlx5_tx_update_ext_mp x config rte_eal_process_type regs r.1 mb.buf_addr mb.mb2mp
  else r

/-- The function `mlx5_tx_mb2mr_bh`. -/
def mlx5_tx_mb2mr_bh (x : mlx5_common_mr) (config : mlx5_dev_config)
    (mempool2mr : mlx5_mr_share_cache → mlx5_mr_ctrl → rte_mempool → Nat → addr2mr_result)
    (rte_eal_process_type : Int) (regs : Nat → Option mlx5_mr) (st : tx_state)
    (mb : rte_mbuf) : tx_state × Nat :=
  let addr := mb.buf_addr
  if config.mr_mempool_reg_en then
    match mb2mr_mp mb with
    | some mp =>
      let r := mb2mr_mempool mempool2mr st mp addr
      if r.2 ≠ UINT32_MAX then r
      else mb2mr_generic x config rte_eal_process_type regs r.1 mb
    | none => mb2mr_generic x config rte_eal_process_type regs st mb
  else mb2mr_generic x config rte_eal_process_type regs st mb

/-- The state the generic mechanism of `mlx5_tx_mb2mr_bh` starts from: the state
after the mempool lookup when one was made, the entry state otherwise. -/
def mb2mr_generic_start (config : mlx5_dev_config)
    (mempool2mr : mlx5_mr_share_cache → mlx5_mr_ctrl → rte_mempool → Nat → addr2mr_result)
    (st : tx_state) (mb : rte_mbuf) : tx_state :=
  if config.mr_mempool_reg_en then
    match mb2mr_mp mb with
    | some mp => (mb2mr_mempool mempool2mr st mp mb.buf_addr).1
    | none => st
  else st

/-- Whether the mempool lookup of `mlx5_tx_mb2mr_bh` is made and finds a key. -/
def mb2mr_mempool_hit (config : mlx5_dev_config)
    (mempool2mr : mlx5_mr_share_cache → mlx5_mr_ctrl → rte_mempool → Nat → addr2mr_result)
    (st : tx_state) (mb : rte_mbuf) : Prop :=
  config.mr_mempool_reg_en = true ∧
    ∃ mp, mb2mr_mp mb = some mp ∧ (mb2mr_mempool mempool2mr st mp mb.buf_addr).2 ≠ UINT32_MAX

/-- An instance of `mlx5_mr_mempool2mr_bh` for examples: the translation through the
caches that `spec_addr2mr_bh` makes. -/
def mempool2mr_example (sc : mlx5_mr_share_cache) (ctrl : mlx5_mr_ctrl) (_mp : rte_mempool)
    (addr : Nat) : addr2mr_result :=
  spec_addr2mr_bh sc ctrl addr false

/-- A device configuration with mempool registration enabled. -/
def config_mempool : mlx5_dev_config := { mr_ext_memseg_en := false, mr_mempool_reg_en := true }

/-- A queue with an empty local cache on the device that holds `mr_a`. -/
def tx_state_a : tx_state := { sh := state_a, mr_ctrl := { cur_gen := 0, cache := [] } }

/-- An mbuf of `mp_example` whose buffer is at `0x1800`, inside `mr_a`. -/
def mbuf_a : rte_mbuf :=
  { buf_addr := 0x1800, has_extbuf := false, free_cb_is_mprq := false, mprq_buf_mp := none,
    mb2mp := mp_example }

/-- An mbuf of `mp_example` whose buffer is at `0x5000`, in no registered region. -/
def mbuf_unreg : rte_mbuf :=
  { buf_addr := 0x5000, has_extbuf := false, free_cb_is_mprq := false, mprq_buf_mp := none,
    mb2mp := mp_example }

/-- No registration succeeds. -/
def regs_none : Nat → Option mlx5_mr := fun _ => none

/-! ## The sections of `mlx5_mr_update_ext_mp_cb` -/

/-- The first section of `mlx5_mr_update_ext_mp_cb` (lines 176 to 178): the global
cache lookup under the read lock; the result is the state and the lkey found. -/
def cb_lookup (x : mlx5_common_mr) (s : mr_state) (memhdr : rte_mempool_memhdr) :
    mr_state × Nat :=
  let s := rte_rwlock_read_lock s
  let lkey := x.mlx5_mr_lookup_cache s.share_cache.cache memhdr.addr
  let s := step (.lookup_cache memhdr.addr) id s
  let s := rte_rwlock_read_unlock s
  (s, lkey)

/-- The rest of `mlx5_mr_update_ext_mp_cb` (lines 179 to 200), run with the lkey the
lookup found: the registration with no lock held and, when it succeeds, the
insertion under the write lock and the translation. -/
def cb_rest (x : mlx5_common_mr) (config : mlx5_dev_config) (lkey : Nat)
    (reg : Option mlx5_mr) (mp : rte_mempool) (s : mr_state) (data : mr_update_mp_data)
    (memhdr : rte_mempool_memhdr) : mr_state × mr_update_mp_data :=
  if lkey ≠ UINT32_MAX then (s, data)
  else
    let s := step (.create_mr_ext memhdr.addr memhdr.len mp.socket_id) id s
    match reg with
    | none => (s, { data with ret := -1 })
    | some mr =>
      let s := rte_rwlock_write_lock s
      let s := LIST_INSERT_HEAD mr s
      let s := mlx5_mr_insert_cache x mr s
      let s := rte_rwlock_write_unlock s
      let r := x.mlx5_mr_addr2mr_bh s.share_cache data.mr_ctrl memhdr.addr
        config.mr_ext_memseg_en
      let s := step (.addr2mr_bh memhdr.addr) (fun _ => r.share_cache) s
      ({ s with rte_errno := r.rte_errno.getD s.rte_errno }, { data with mr_ctrl := r.mr_ctrl })

/-- Two callers `A` and `B` running `mlx5_mr_update_ext_mp_cb` for the same chunk,
scheduled so that `B` makes its lookup after `A` released the read lock and before
`A` goes on: `A` looks up, `B` looks up, `A` runs its rest, `B` runs its rest.  No
lock is held at the points where the callers alternate.  The result is the state
and the callback data of `A` and of `B`. -/
def cb_two_callers_interleaved (x : mlx5_common_mr) (config : mlx5_dev_config)
    (regA regB : Option mlx5_mr) (mp : rte_mempool) (s : mr_state)
    (dataA dataB : mr_update_mp_data) (memhdr : rte_mempool_memhdr) :
    mr_state × mr_update_mp_data × mr_update_mp_data :=
  let la := cb_lookup x s memhdr
  let lb := cb_lookup x la.1 memhdr
  let ra := cb_rest x config la.2 regA mp lb.1 dataA memhdr
  let rb := cb_rest x config lb.2 regB mp ra.1 dataB memhdr
  (rb.1, ra.2, rb.2)

/-- Two callers `A` and `B` running `mlx5_mr_update_ext_mp_cb` for the same chunk one
after the other. -/
def cb_two_callers_sequential (x : mlx5_common_mr) (config : mlx5_dev_config)
    (regA regB : Option mlx5_mr) (mp : rte_mempool) (s : mr_state)
    (dataA dataB : mr_update_mp_data) (memhdr : rte_mempool_memhdr) :
    mr_state × mr_update_mp_data × mr_update_mp_data :=
  let ra := mlx5_mr_update_ext_mp_cb x config regA mp s dataA memhdr 0
  let rb := mlx5_mr_update_ext_mp_cb x config regB mp ra.1 dataB memhdr 0
  (rb.1, ra.2, rb.2)

/-- A second registration of `[0x2000, 0x3000)`, with key 10. -/
def mr_b2 : mlx5_mr := { start := 0x2000, end_ := 0x3000, lkey := 10 }

/-! ## Lock discipline of a trace -/

/-- Whether an event is a call of `mlx5_mr_free`. -/
def mr_event.is_mr_free : mr_event → Bool
  | .mr_free _ => true
  | _ => false

/-- Whether the lock events of a sequence of primitives are balanced, starting with
the lock held as `held` says (`none`: not held by the routine, `some false`: read
side held, `some true`: write side held): a lock is acquired only when none is held,
a release matches the side that is held, and nothing is held at the end. -/
def lock_balanced_from : Option Bool → List mr_event → Bool
  | held, [] => held.isNone
  | none, .read_lock :: t => lock_balanced_from (some false) t
  | none, .write_lock :: t => lock_balanced_from (some true) t
  | some false, .read_unlock :: t => lock_balanced_from none t
  | some true, .write_unlock :: t => lock_balanced_from none t
  | _, .read_lock :: _ => false
  | _, .write_lock :: _ => false
  | _, .read_unlock :: _ => false
  | _, .write_unlock :: _ => false
  | held, _ :: t => lock_balanced_from held t

/-- Whether the lock events of the primitives of one routine are balanced. -/
def lock_balanced (evs : List mr_event) : Bool :=
  lock_balanced_from none evs

/-- Whether the lock events of a sequence of memory event primitives are balanced,
starting with the write lock held or not as `held` says. -/
def mem_lock_balanced_from : Bool → List mem_event_step → Bool
  | held, [] => !held
  | false, .write_lock :: t => mem_lock_balanced_from true t
  | true, .write_unlock :: t => mem_lock_balanced_from false t
  | _, .write_lock :: _ => false
  | _, .write_unlock :: _ => false
  | held, .free_mr_by_addr _ _ _ :: t => mem_lock_balanced_from held t

/-- The enumerator `RTE_PROC_SECONDARY` of `enum rte_proc_type_t`. -/
def RTE_PROC_SECONDARY : Int := 1

/-- A mempool whose only memory chunk is `[0x2000, 0x3000)`. -/
def mp_chunk_b : rte_mempool := { name := "mp", socket_id := 0, mem_list := [memhdr_b] }

/-- Every registration succeeds with the region `mr_b`. -/
def regs_b : Nat → Option mlx5_mr := fun _ => some mr_b

/-! ## Rounds of map and unmap -/

/-- The shared cache of a device with no region registered and generation `g`. -/
def share_cache_empty (g : Nat) : mlx5_mr_share_cache :=
  { dev_gen := g, rwlock := lock_free, mr_list := [], cache := [] }

/-- The map of `[0x1000, 0x2000)`, registered as `mr_a`. -/
def call_map_a : mr_call := .dma_map 0 (some mr_a) 0x1000 0 0x1000

/-- The unmap of `0x1000`. -/
def call_unmap_a : mr_call := .dma_unmap 0 0x1000 0 0x1000

/-- `n` rounds of a map of `[0x1000, 0x2000)` followed by its unmap. -/
def map_unmap_rounds : Nat → List mr_call
  | 0 => []
  | n + 1 => call_map_a :: call_unmap_a :: map_unmap_rounds n

/-- The calls of `calls_example` that come before its unmap. -/
def calls_before_unmap : List mr_call :=
  [.dma_map 0 (some mr_a) 0x1000 0 0x1000,
   .update_ext_mp_cb (some mr_b) mp_example data_example memhdr_b 0]

end Mlx5Mr

/-!
# TLV messages of the DWA library (`lib/dwa/rte_dwa_core.h`)

The tag and subtag enumerators, the TLV identifier macros, `struct rte_dwa_tlv` and
the two inline functions `rte_dwa_tlv_fill` and `rte_dwa_tlv_d2h_to_msg`.  A TLV
pointer is an `Option`, `none` being `NULL`; a payload is the list of its bytes.
-/

namespace Dwa

/-- The enumerator `RTE_DWA_TAG_COMMON` of `enum rte_dwa_tag`. -/
def RTE_DWA_TAG_COMMON : Nat := 0

/-- The enumerator `RTE_DWA_TAG_PORT_DWA_BASE` of `enum rte_dwa_tag`. -/
def RTE_DWA_TAG_PORT_DWA_BASE : Nat := 0x400

/-- The enumerator `RTE_DWA_TAG_PORT_HOST_BASE` of `enum rte_dwa_tag`. -/
def RTE_DWA_TAG_PORT_HOST_BASE : Nat := 0x800

/-- The enumerator `RTE_DWA_TAG_VENDOR_EXTENSION` of `enum rte_dwa_tag`. -/
def RTE_DWA_TAG_VENDOR_EXTENSION : Nat := 0x1000

/-- The enumerator `RTE_DWA_TAG_PROFILE_BASE` of `enum rte_dwa_tag`. -/
def RTE_DWA_TAG_PROFILE_BASE : Nat := 0x3000

/-- The enumerator `RTE_DWA_TAG_MAX` of `enum rte_dwa_tag`, `UINT16_MAX`. -/
def RTE_DWA_TAG_MAX : Nat := 65535

/-- The enumerator `RTE_DWA_STAG_COMMON_D2H_SUCCESS` of `enum rte_dwa_stag_common`. -/
def RTE_DWA_STAG_COMMON_D2H_SUCCESS : Nat := 0

/-- The enumerator `RTE_DWA_STAG_COMMON_D2H_ERR` of `enum rte_dwa_stag_common`. -/
def RTE_DWA_STAG_COMMON_D2H_ERR : Nat := 1

/-- The macro `RTE_DWA_TLV_ID(tag, stag)`,
`((uint32_t)((uint32_t)(tag) << 16 | (stag)))`: the tag is converted to 32 bits and
shifted in 32 bits, the subtag is or-ed in, and the result is converted to 32 bits. -/
def RTE_DWA_TLV_ID (tag stag : Nat) : Nat :=
  ((((tag % 2 ^ 32) <<< 16) % 2 ^ 32) ||| stag) % 2 ^ 32

/-- The macro call `RTE_DWA_TLV_MK_ID(COMMON, D2H_ERR)`, which pastes to
`RTE_DWA_TLV_ID(RTE_DWA_TAG_COMMON, RTE_DWA_STAG_COMMON_D2H_ERR)`. -/
def RTE_DWA_TLV_MK_ID_COMMON_D2H_ERR : Nat :=
  RTE_DWA_TLV_ID RTE_DWA_TAG_COMMON RTE_DWA_STAG_COMMON_D2H_ERR

/-- The `struct rte_dwa_tlv`: `id` is the value held by the four bytes of the outer
union, read as its `uint32_t` member; `len` is the payload length; `msg` is the
payload, the bytes of the flexible array. -/
structure rte_dwa_tlv where
  id : Nat
  len : Nat
  msg : List Nat
deriving DecidableEq

/-- The member `tag` of the inner union of `struct rte_dwa_tlv`.  The inner
declaration is `union { uint16_t tag; uint16_t stag; }`, itself a member of the
union that holds `id`, so `tag` is the `uint16_t` at offset 0 of the storage of
`id`; `rd` is how the platform reads that `uint16_t` out of the `uint32_t` value. -/
def rte_dwa_tlv.tag (rd : Nat → Nat) (tlv : rte_dwa_tlv) : Nat :=
  rd tlv.id

/-- The member `stag` of the inner union of `struct rte_dwa_tlv`: like `tag`, the
`uint16_t` at offset 0 of the storage of `id`. -/
def rte_dwa_tlv.stag (rd : Nat → Nat) (tlv : rte_dwa_tlv) : Nat :=
  rd tlv.id

/-- The `uint16_t` at offset 0 of a `uint32_t` on a little-endian platform: its two
low-order bytes. -/
def uint16_at_0_le (v : Nat) : Nat := v % 2 ^ 16

/-- The `uint16_t` at offset 0 of a `uint32_t` on a big-endian platform: its two
high-order bytes. -/
def uint16_at_0_be (v : Nat) : Nat := (v / 2 ^ 16) % 2 ^ 16

/-- The call `rte_memcpy(dst, src, n)`, a `memcpy`: the first `n` bytes of `dst` are
replaced by the first `n` bytes of `src`. -/
def rte_memcpy (dst src : List Nat) (n : Nat) : List Nat :=
  src.take n ++ dst.drop n

/-- The function `rte_dwa_tlv_fill`; `id` and `len` are `uint32_t` values and `msg`
is the buffer the pointer designates. -/
def rte_dwa_tlv_fill (tlv : rte_dwa_tlv) (id len : Nat) (msg : List Nat) : rte_dwa_tlv :=
  let tlv := { tlv with id := id }
  let tlv := { tlv with len := len }
  if len ≠ 0 then { tlv with msg := rte_memcpy tlv.msg msg len } else tlv

/-- The function `rte_dwa_tlv_d2h_to_msg`; the result is the payload `tlv->msg`
points to, or `none` for `NULL`. -/
def rte_dwa_tlv_d2h_to_msg (tlv : Option rte_dwa_tlv) : Option (List Nat) :=
  match tlv with
  | none => none
  | some t => if t.id = RTE_DWA_TLV_MK_ID_COMMON_D2H_ERR then none else some t.msg

/-- A TLV with an empty header and a payload buffer of four bytes. -/
def tlv_example : rte_dwa_tlv := { id := 0, len := 0, msg := [0xaa, 0xbb, 0xcc, 0xdd] }

end Dwa

namespace Mlx5Mr

/-! # Theorems -/
/-! ## Unfolding lemmas -/

@[simp] theorem step_share_cache (ev : mr_event) (f : mlx5_mr_share_cache → mlx5_mr_share_cache)
    (s : mr_state) : (step ev f s).share_cache = f s.share_cache := rfl

@[simp] theorem step_trace (ev : mr_event) (f : mlx5_mr_share_cache → mlx5_mr_share_cache)
    (s : mr_state) : (step ev f s).trace = s.trace ++ [(ev, f s.share_cache)] := rfl

@[simp] theorem step_rte_errno (ev : mr_event) (f : mlx5_mr_share_cache → mlx5_mr_share_cache)
    (s : mr_state) : (step ev f s).rte_errno = s.rte_errno := rfl

/-- The three paths of `mlx5_net_dma_unmap`: no matching ethdev. -/
theorem unmap_no_dev (x : mlx5_common_mr) (p : Nat) (s : mr_state) (addr iova len : Nat)
    (hd : dev_to_eth_dev x p = none) :
    mlx5_net_dma_unmap x p s addr iova len = ({ s with rte_errno := ENODEV }, -1) := by
  unfold mlx5_net_dma_unmap
  rw [hd]

/-- The three paths of `mlx5_net_dma_unmap`: the address is in no region. -/
theorem unmap_not_found (x : mlx5_common_mr) (p d : Nat) (s : mr_state) (addr iova len : Nat)
    (hd : dev_to_eth_dev x p = some d)
    (hl : x.mlx5_mr_lookup_list s.share_cache.mr_list addr = none) :
    mlx5_net_dma_unmap x p s addr iova len =
      ({ rte_rwlock_write_unlock (step (.lookup_list addr) id (rte_rwlock_write_lock s))
          with rte_errno := EINVAL }, -1) := by
  unfold mlx5_net_dma_unmap
  simp only [hd]
  have h : x.mlx5_mr_lookup_list
      (step (.lookup_list addr) id (rte_rwlock_write_lock s)).share_cache.mr_list addr
        = none := hl
  rw [h]

/-- The three paths of `mlx5_net_dma_unmap`: the region at position `i` is removed. -/
theorem unmap_found (x : mlx5_common_mr) (p d : Nat) (s : mr_state) (addr iova len : Nat)
    (i : Fin s.share_cache.mr_list.length)
    (hd : dev_to_eth_dev x p = some d)
    (hl : x.mlx5_mr_lookup_list s.share_cache.mr_list addr = some i) :
    mlx5_net_dma_unmap x p s addr iova len =
      (rte_rwlock_write_unlock (dev_gen_inc x (mlx5_mr_rebuild_cache x
        (mlx5_mr_free (s.share_cache.mr_list.get i)
          (LIST_REMOVE s.share_cache.mr_list i
            (step (.lookup_list addr) id (rte_rwlock_write_lock s)))))), 0) := by
  unfold mlx5_net_dma_unmap
  simp only [hd]
  have h : x.mlx5_mr_lookup_list
      (step (.lookup_list addr) id (rte_rwlock_write_lock s)).share_cache.mr_list addr
        = some i := hl
  rw [h]
  rfl

/-- A successful `mlx5_net_dma_unmap` found a device and a region. -/
theorem unmap_ret_zero (x : mlx5_common_mr) (p : Nat) (s : mr_state) (addr iova len : Nat)
    (hret : (mlx5_net_dma_unmap x p s addr iova len).2 = 0) :
    ∃ d, ∃ i : Fin s.share_cache.mr_list.length, dev_to_eth_dev x p = some d ∧
      x.mlx5_mr_lookup_list s.share_cache.mr_list addr = some i := by
  cases hd : dev_to_eth_dev x p with
  | none => rw [unmap_no_dev x p s addr iova len hd] at hret; simp at hret
  | some d =>
    cases hl : x.mlx5_mr_lookup_list s.share_cache.mr_list addr with
    | none => rw [unmap_not_found x p d s addr iova len hd hl] at hret; simp at hret
    | some i => exact ⟨d, i, rfl, rfl⟩

/-- In a list of pairwise disjoint regions, every region other than the one at
position `i` is disjoint from it. -/
theorem disjoint_of_mem_eraseIdx (l : List mlx5_mr) (i : Fin l.length)
    (hpw : l.Pairwise mr_disjoint) (mr : mlx5_mr) (hmr : mr ∈ l.eraseIdx i.val) :
    mr_disjoint (l.get i) mr := by
  rw [List.mem_eraseIdx_iff_getElem] at hmr
  obtain ⟨j, hj, hne, rfl⟩ := hmr
  rw [List.pairwise_iff_getElem] at hpw
  rcases Nat.lt_or_gt_of_ne hne with h | h
  · have := hpw j i.val hj i.isLt h
    rcases this with h1 | h1
    · exact Or.inr h1
    · exact Or.inl h1
  · exact hpw i.val j i.isLt hj h

/-! ## The instance written from the specification meets the assumptions -/

theorem spec_lookup_list_sound : lookup_list_sound spec_common_mr := by
  intro l
  induction l with
  | nil => intro addr i; exact i.elim0
  | cons mr rest ih =>
    intro addr i h
    simp only [spec_common_mr, spec_lookup_list] at h
    by_cases hc : mr.start ≤ addr ∧ addr < mr.end_
    · rw [if_pos hc] at h
      cases h
      exact hc
    · rw [if_neg hc] at h
      cases hr : spec_lookup_list rest addr with
      | none => rw [hr] at h; simp at h
      | some j =>
        rw [hr] at h
        simp only [Option.map_some', Option.some.injEq] at h
        subst h
        exact ih addr j hr

/-- A hit of the specification's cache lookup is the key of an entry of the cache
that contains the address. -/
theorem spec_lookup_cache_hit (c : List mr_cache_entry) (addr : Nat)
    (h : spec_lookup_cache c addr ≠ UINT32_MAX) :
    ∃ e ∈ c, e.start ≤ addr ∧ addr < e.end_ ∧ e.lkey = spec_lookup_cache c addr := by
  unfold spec_lookup_cache at h ⊢
  cases hf : c.find? (fun e => decide (e.start ≤ addr) && decide (addr < e.end_)) with
  | none => rw [hf] at h; exact absurd rfl h
  | some e =>
    have hp := List.find?_some hf
    simp only [Bool.and_eq_true, decide_eq_true_eq] at hp
    exact ⟨e, List.mem_of_find?_eq_some hf, hp.1, hp.2, rfl⟩

theorem spec_rebuild_faithful : rebuild_faithful spec_common_mr := by
  intro l c addr h
  obtain ⟨e, he, h1, h2, h3⟩ := spec_lookup_cache_hit _ addr h
  simp only [spec_common_mr, spec_rebuild_cache, List.mem_insertionSort, List.mem_map] at he
  obtain ⟨mr, hmr, rfl⟩ := he
  exact ⟨mr, hmr, ⟨h1, h2⟩, h3⟩

/-- Looking up an address after an ordered insert finds either what it found
before or the inserted entry. -/
theorem find_orderedInsert (p : mr_cache_entry → Bool) (a : mr_cache_entry)
    (c : List mr_cache_entry) :
    (List.orderedInsert entry_le a c).find? p = c.find? p ∨
      ((List.orderedInsert entry_le a c).find? p = some a ∧ p a = true) := by
  induction c with
  | nil =>
    by_cases hp : p a = true
    · right; simp [hp]
    · left; simp [hp]
  | cons b c ih =>
    rw [List.orderedInsert]
    by_cases hab : entry_le a b
    · rw [if_pos hab]
      by_cases hp : p a = true
      · right; simp [hp]
      · left
        simp only [Bool.not_eq_true] at hp
        rw [List.find?_cons_of_neg _ (by simp [hp])]
    · rw [if_neg hab]
      by_cases hb : p b = true
      · left; simp [hb]
      · simp only [Bool.not_eq_true] at hb
        rw [List.find?_cons_of_neg _ (by simp [hb]), List.find?_cons_of_neg _ (by simp [hb])]
        exact ih

theorem spec_insert_faithful : insert_faithful spec_common_mr := by
  intro l c mr hco addr h
  simp only [spec_common_mr] at h hco ⊢
  unfold coherent at hco
  simp only at hco
  have key := find_orderedInsert
    (fun e => decide (e.start ≤ addr) && decide (addr < e.end_)) (mr_cache_entry.of_mr mr) c
  rcases key with hk | ⟨hk, hp⟩
  · have heq : spec_lookup_cache (spec_insert_cache c mr) addr = spec_lookup_cache c addr := by
      unfold spec_lookup_cache spec_insert_cache
      rw [hk]
    rw [heq] at h ⊢
    obtain ⟨m, hm, hc, hkey⟩ := hco addr h
    exact ⟨m, List.mem_cons_of_mem _ hm, hc, hkey⟩
  · have heq : spec_lookup_cache (spec_insert_cache c mr) addr = mr.lkey := by
      unfold spec_lookup_cache spec_insert_cache
      rw [hk]
      rfl
    simp only [Bool.and_eq_true, decide_eq_true_eq, mr_cache_entry.of_mr] at hp
    exact ⟨mr, List.mem_cons_self _ _, ⟨hp.1, hp.2⟩, heq.symm⟩

/-- The specification's bottom-half translation does not write the shared cache. -/
theorem spec_addr2mr_share_cache (sc : mlx5_mr_share_cache) (ctrl : mlx5_mr_ctrl)
    (addr : Nat) (en : Bool) : (spec_addr2mr_bh sc ctrl addr en).share_cache = sc := by
  unfold spec_addr2mr_bh
  split
  · rfl
  · dsimp only
    cases sc.cache.find? (fun e => decide (e.start ≤ addr) && decide (addr < e.end_)) <;> rfl

theorem spec_addr2mr_faithful : addr2mr_faithful spec_common_mr := by
  intro sc ctrl addr en h
  simp only [spec_common_mr, spec_addr2mr_share_cache] at h ⊢
  exact h

theorem spec_addr2mr_keeps_gen : addr2mr_keeps_gen spec_common_mr := by
  intro sc ctrl addr en
  simp only [spec_common_mr, spec_addr2mr_share_cache]

/-- The three paths of `mlx5_net_dma_map`: no matching ethdev. -/
theorem map_no_dev (x : mlx5_common_mr) (p : Nat) (reg : Option mlx5_mr) (s : mr_state)
    (addr iova len : Nat) (hd : dev_to_eth_dev x p = none) :
    mlx5_net_dma_map x p reg s addr iova len = ({ s with rte_errno := ENODEV }, -1) := by
  unfold mlx5_net_dma_map
  rw [hd]

/-- The three paths of `mlx5_net_dma_map`: the registration fails. -/
theorem map_reg_fail (x : mlx5_common_mr) (p d : Nat) (s : mr_state)
    (addr iova len : Nat) (hd : dev_to_eth_dev x p = some d) :
    mlx5_net_dma_map x p none s addr iova len =
      ({ step (.create_mr_ext addr len SOCKET_ID_ANY) id s with rte_errno := EINVAL }, -1) := by
  unfold mlx5_net_dma_map
  rw [hd]

/-- The three paths of `mlx5_net_dma_map`: the region is registered and inserted. -/
theorem map_ok (x : mlx5_common_mr) (p d : Nat) (mr : mlx5_mr) (s : mr_state)
    (addr iova len : Nat) (hd : dev_to_eth_dev x p = some d) :
    mlx5_net_dma_map x p (some mr) s addr iova len =
      (rte_rwlock_write_unlock (mlx5_mr_insert_cache x mr (LIST_INSERT_HEAD mr
        (rte_rwlock_write_lock (step (.create_mr_ext addr len SOCKET_ID_ANY) id s)))), 0) := by
  unfold mlx5_net_dma_map
  rw [hd]

/-- The state `mlx5_mr_update_ext_mp_cb` is in after its lookup under the read lock. -/
theorem cb_lookup_cache (s : mr_state) :
    (rte_rwlock_read_lock s).share_cache.cache = s.share_cache.cache := rfl

/-- The three paths of `mlx5_mr_update_ext_mp_cb`: the chunk is already registered. -/
theorem cb_hit (x : mlx5_common_mr) (config : mlx5_dev_config) (reg : Option mlx5_mr)
    (mp : rte_mempool) (s : mr_state) (data : mr_update_mp_data)
    (memhdr : rte_mempool_memhdr) (mem_idx : Nat)
    (hl : x.mlx5_mr_lookup_cache s.share_cache.cache memhdr.addr ≠ UINT32_MAX) :
    mlx5_mr_update_ext_mp_cb x config reg mp s data memhdr mem_idx =
      (rte_rwlock_read_unlock (step (.lookup_cache memhdr.addr) id (rte_rwlock_read_lock s)),
        data) := by
  unfold mlx5_mr_update_ext_mp_cb
  simp only [cb_lookup_cache s]
  rw [if_pos hl]

/-- The three paths of `mlx5_mr_update_ext_mp_cb`: the registration fails. -/
theorem cb_reg_fail (x : mlx5_common_mr) (config : mlx5_dev_config)
    (mp : rte_mempool) (s : mr_state) (data : mr_update_mp_data)
    (memhdr : rte_mempool_memhdr) (mem_idx : Nat)
    (hl : x.mlx5_mr_lookup_cache s.share_cache.cache memhdr.addr = UINT32_MAX) :
    mlx5_mr_update_ext_mp_cb x config none mp s data memhdr mem_idx =
      (step (.create_mr_ext memhdr.addr memhdr.len mp.socket_id) id
        (rte_rwlock_read_unlock (step (.lookup_cache memhdr.addr) id (rte_rwlock_read_lock s))),
        { data with ret := -1 }) := by
  unfold mlx5_mr_update_ext_mp_cb
  simp only [cb_lookup_cache s]
  rw [if_neg (by simp [hl])]

/-- The three paths of `mlx5_mr_update_ext_mp_cb`: the chunk is registered, inserted
and translated. -/
theorem cb_ok (x : mlx5_common_mr) (config : mlx5_dev_config) (mr : mlx5_mr)
    (mp : rte_mempool) (s : mr_state) (data : mr_update_mp_data)
    (memhdr : rte_mempool_memhdr) (mem_idx : Nat)
    (hl : x.mlx5_mr_lookup_cache s.share_cache.cache memhdr.addr = UINT32_MAX) :
    mlx5_mr_update_ext_mp_cb x config (some mr) mp s data memhdr mem_idx =
      ({ step (.addr2mr_bh memhdr.addr)
          (fun _ => (x.mlx5_mr_addr2mr_bh (cb_inserted x mr mp s memhdr).share_cache
            data.mr_ctrl memhdr.addr config.mr_ext_memseg_en).share_cache)
          (cb_inserted x mr mp s memhdr) with
          rte_errno := (x.mlx5_mr_addr2mr_bh (cb_inserted x mr mp s memhdr).share_cache
            data.mr_ctrl memhdr.addr config.mr_ext_memseg_en).rte_errno.getD s.rte_errno },
        { data with
          mr_ctrl := (x.mlx5_mr_addr2mr_bh (cb_inserted x mr mp s memhdr).share_cache
            data.mr_ctrl memhdr.addr config.mr_ext_memseg_en).mr_ctrl }) := by
  unfold mlx5_mr_update_ext_mp_cb
  simp only [cb_lookup_cache s]
  rw [if_neg (by simp [hl])]
  rfl

/-! ## Coherence is kept by every routine -/

/-- Coherence only reads the MR list and the cache table. -/
theorem trace_coherent_append (x : mlx5_common_mr)
    (t : List (mr_event × mlx5_mr_share_cache)) (ev : mr_event) (sc : mlx5_mr_share_cache)
    (ht : trace_coherent x t) (h : sc.rwlock.writer = false → coherent x sc.mr_list sc.cache) :
    trace_coherent x (t ++ [(ev, sc)]) := by
  intro p hp
  rw [List.mem_append, List.mem_singleton] at hp
  rcases hp with hp | rfl
  · exact ht p hp
  · exact h

/-- The routine `mlx5_net_dma_unmap` keeps the shared cache coherent at every point
where the write lock is not held. -/
theorem unmap_coherent (x : mlx5_common_mr) (hr : rebuild_faithful x)
    (p : Nat) (s : mr_state) (addr iova len : Nat)
    (hs : coherent x s.share_cache.mr_list s.share_cache.cache)
    (ht : trace_coherent x s.trace) :
    coherent x (mlx5_net_dma_unmap x p s addr iova len).1.share_cache.mr_list
        (mlx5_net_dma_unmap x p s addr iova len).1.share_cache.cache ∧
      trace_coherent x (mlx5_net_dma_unmap x p s addr iova len).1.trace := by
  cases hd : dev_to_eth_dev x p with
  | none => rw [unmap_no_dev x p s addr iova len hd]; exact ⟨hs, ht⟩
  | some d =>
    cases hl : x.mlx5_mr_lookup_list s.share_cache.mr_list addr with
    | none =>
      rw [unmap_not_found x p d s addr iova len hd hl]
      refine ⟨hs, ?_⟩
      simp only [rte_rwlock_write_unlock, rte_rwlock_write_lock, step_trace, step_share_cache, id]
      refine trace_coherent_append x _ _ _ (trace_coherent_append x _ _ _
        (trace_coherent_append x _ _ _ ht ?_) ?_) ?_
      · intro h; simp at h
      · intro h; simp at h
      · intro _; exact hs
    | some i =>
      rw [unmap_found x p d s addr iova len i hd hl]
      have hfin := hr (s.share_cache.mr_list.eraseIdx i.val) s.share_cache.cache
      refine ⟨hfin, ?_⟩
      simp only [rte_rwlock_write_unlock, rte_rwlock_write_lock, dev_gen_inc,
        mlx5_mr_rebuild_cache, mlx5_mr_free, LIST_REMOVE, step_trace, step_share_cache, id]
      refine trace_coherent_append x _ _ _ (trace_coherent_append x _ _ _
        (trace_coherent_append x _ _ _ (trace_coherent_append x _ _ _
        (trace_coherent_append x _ _ _ (trace_coherent_append x _ _ _
        (trace_coherent_append x _ _ _ ht ?_) ?_) ?_) ?_) ?_) ?_) ?_
      · intro h; simp at h
      · intro h; simp at h
      · intro h; simp at h
      · intro h; simp at h
      · intro h; simp at h
      · intro h; simp at h
      · intro _; exact hfin

/-- The routine `mlx5_net_dma_map` keeps the shared cache coherent at every point
where the write lock is not held. -/
theorem map_coherent (x : mlx5_common_mr) (hi : insert_faithful x)
    (p : Nat) (reg : Option mlx5_mr) (s : mr_state) (addr iova len : Nat)
    (hs : coherent x s.share_cache.mr_list s.share_cache.cache)
    (ht : trace_coherent x s.trace) :
    coherent x (mlx5_net_dma_map x p reg s addr iova len).1.share_cache.mr_list
        (mlx5_net_dma_map x p reg s addr iova len).1.share_cache.cache ∧
      trace_coherent x (mlx5_net_dma_map x p reg s addr iova len).1.trace := by
  cases hd : dev_to_eth_dev x p with
  | none => rw [map_no_dev x p reg s addr iova len hd]; exact ⟨hs, ht⟩
  | some d =>
    cases reg with
    | none =>
      rw [map_reg_fail x p d s addr iova len hd]
      exact ⟨hs, trace_coherent_append x _ _ _ ht (fun _ => hs)⟩
    | some mr =>
      rw [map_ok x p d mr s addr iova len hd]
      have hfin := hi _ _ mr hs
      refine ⟨hfin, ?_⟩
      simp only [rte_rwlock_write_unlock, rte_rwlock_write_lock, mlx5_mr_insert_cache,
        LIST_INSERT_HEAD, step_trace, step_share_cache, id]
      refine trace_coherent_append x _ _ _ (trace_coherent_append x _ _ _
        (trace_coherent_append x _ _ _ (trace_coherent_append x _ _ _
        (trace_coherent_append x _ _ _ ht ?_) ?_) ?_) ?_) ?_
      · intro _; exact hs
      · intro h; simp at h
      · intro h; simp at h
      · intro h; simp at h
      · intro _; exact hfin

/-- The routine `mlx5_mr_update_ext_mp_cb` keeps the shared cache coherent at every
point where the write lock is not held. -/
theorem cb_coherent (x : mlx5_common_mr) (hi : insert_faithful x) (hb : addr2mr_faithful x)
    (config : mlx5_dev_config) (reg : Option mlx5_mr) (mp : rte_mempool) (s : mr_state)
    (data : mr_update_mp_data) (memhdr : rte_mempool_memhdr) (mem_idx : Nat)
    (hs : coherent x s.share_cache.mr_list s.share_cache.cache)
    (ht : trace_coherent x s.trace) :
    coherent x
        (mlx5_mr_update_ext_mp_cb x config reg mp s data memhdr mem_idx).1.share_cache.mr_list
        (mlx5_mr_update_ext_mp_cb x config reg mp s data memhdr mem_idx).1.share_cache.cache ∧
      trace_coherent x
        (mlx5_mr_update_ext_mp_cb x config reg mp s data memhdr mem_idx).1.trace := by
  have h3 : trace_coherent x (rte_rwlock_read_unlock
      (step (.lookup_cache memhdr.addr) id (rte_rwlock_read_lock s))).trace := by
    simp only [rte_rwlock_read_unlock, rte_rwlock_read_lock, step_trace, step_share_cache, id]
    exact trace_coherent_append x _ _ _ (trace_coherent_append x _ _ _
      (trace_coherent_append x _ _ _ ht (fun _ => hs)) (fun _ => hs)) (fun _ => hs)
  by_cases hl : x.mlx5_mr_lookup_cache s.share_cache.cache memhdr.addr = UINT32_MAX
  · cases reg with
    | none =>
      rw [cb_reg_fail x config mp s data memhdr mem_idx hl]
      refine ⟨hs, ?_⟩
      rw [step_trace]
      exact trace_coherent_append x _ _ _ h3 (fun _ => hs)
    | some mr =>
      rw [cb_ok x config mr mp s data memhdr mem_idx hl]
      have hins : coherent x (cb_inserted x mr mp s memhdr).share_cache.mr_list
          (cb_inserted x mr mp s memhdr).share_cache.cache := hi _ _ mr hs
      have hfin := hb _ data.mr_ctrl memhdr.addr config.mr_ext_memseg_en hins
      refine ⟨hfin, ?_⟩
      have h8 : trace_coherent x (cb_inserted x mr mp s memhdr).trace := by
        simp only [cb_inserted, rte_rwlock_write_unlock, rte_rwlock_write_lock,
          mlx5_mr_insert_cache, LIST_INSERT_HEAD, step_trace, step_share_cache]
        refine trace_coherent_append x _ _ _ (trace_coherent_append x _ _ _
          (trace_coherent_append x _ _ _ (trace_coherent_append x _ _ _
          (trace_coherent_append x _ _ _ h3 ?_) ?_) ?_) ?_) ?_
        · intro _; exact hs
        · intro h; simp [rte_rwlock_read_unlock, rte_rwlock_read_lock] at h
        · intro h; simp [rte_rwlock_read_unlock, rte_rwlock_read_lock] at h
        · intro h; simp [rte_rwlock_read_unlock, rte_rwlock_read_lock] at h
        · intro _; exact hi _ _ mr hs
      exact trace_coherent_append x _ _ _ h8 (fun _ => hfin)
  · rw [cb_hit x config reg mp s data memhdr mem_idx hl]
    exact ⟨hs, h3⟩

/-- Coherence is kept by every call. -/
theorem run_call_coherent (x : mlx5_common_mr) (hi : insert_faithful x)
    (hr : rebuild_faithful x) (hb : addr2mr_faithful x) (config : mlx5_dev_config)
    (s : mr_state) (c : mr_call)
    (hs : coherent x s.share_cache.mr_list s.share_cache.cache)
    (ht : trace_coherent x s.trace) :
    coherent x (run_call x config s c).share_cache.mr_list
        (run_call x config s c).share_cache.cache ∧
      trace_coherent x (run_call x config s c).trace := by
  cases c with
  | dma_map p reg addr iova len => exact map_coherent x hi p reg s addr iova len hs ht
  | dma_unmap p addr iova len => exact unmap_coherent x hr p s addr iova len hs ht
  | update_ext_mp_cb reg mp data memhdr mem_idx =>
    exact cb_coherent x hi hb config reg mp s data memhdr mem_idx hs ht

/-- Coherence is kept along every sequence of calls. -/
theorem run_calls_coherent (x : mlx5_common_mr) (hi : insert_faithful x)
    (hr : rebuild_faithful x) (hb : addr2mr_faithful x) (config : mlx5_dev_config)
    (s : mr_state) (cs : List mr_call)
    (hs : coherent x s.share_cache.mr_list s.share_cache.cache)
    (ht : trace_coherent x s.trace) :
    coherent x (run_calls x config s cs).share_cache.mr_list
        (run_calls x config s cs).share_cache.cache ∧
      trace_coherent x (run_calls x config s cs).trace := by
  induction cs generalizing s with
  | nil => exact ⟨hs, ht⟩
  | cons c cs ih =>
    obtain ⟨h1, h2⟩ := run_call_coherent x hi hr hb config s c hs ht
    exact ih (run_call x config s c) h1 h2

/-! ## The generation counter -/

/-- What `mlx5_net_dma_unmap` does to `dev_gen`: a successful call increments it,
any other call leaves it. -/
theorem unmap_dev_gen (x : mlx5_common_mr) (p : Nat) (s : mr_state) (addr iova len : Nat) :
    (mlx5_net_dma_unmap x p s addr iova len).1.share_cache.dev_gen =
      if (mlx5_net_dma_unmap x p s addr iova len).2 = 0
      then (s.share_cache.dev_gen + 1) % 2 ^ x.dev_gen_bits
      else s.share_cache.dev_gen := by
  cases hd : dev_to_eth_dev x p with
  | none => rw [unmap_no_dev x p s addr iova len hd]; simp
  | some d =>
    cases hl : x.mlx5_mr_lookup_list s.share_cache.mr_list addr with
    | none => rw [unmap_not_found x p d s addr iova len hd hl]; simp; rfl
    | some i => rw [unmap_found x p d s addr iova len i hd hl]; simp; rfl

/-- The routine `mlx5_net_dma_map` does not write `dev_gen`. -/
theorem map_dev_gen (x : mlx5_common_mr) (p : Nat) (reg : Option mlx5_mr) (s : mr_state)
    (addr iova len : Nat) :
    (mlx5_net_dma_map x p reg s addr iova len).1.share_cache.dev_gen =
      s.share_cache.dev_gen := by
  cases hd : dev_to_eth_dev x p with
  | none => rw [map_no_dev x p reg s addr iova len hd]
  | some d =>
    cases reg with
    | none => rw [map_reg_fail x p d s addr iova len hd]; rfl
    | some mr => rw [map_ok x p d mr s addr iova len hd]; rfl

/-- The routine `mlx5_mr_update_ext_mp_cb` does not write `dev_gen` itself. -/
theorem cb_dev_gen (x : mlx5_common_mr) (hb : addr2mr_keeps_gen x) (config : mlx5_dev_config)
    (reg : Option mlx5_mr) (mp : rte_mempool) (s : mr_state) (data : mr_update_mp_data)
    (memhdr : rte_mempool_memhdr) (mem_idx : Nat) :
    (mlx5_mr_update_ext_mp_cb x config reg mp s data memhdr mem_idx).1.share_cache.dev_gen =
      s.share_cache.dev_gen := by
  by_cases hl : x.mlx5_mr_lookup_cache s.share_cache.cache memhdr.addr = UINT32_MAX
  · cases reg with
    | none => rw [cb_reg_fail x config mp s data memhdr mem_idx hl]; rfl
    | some mr =>
      rw [cb_ok x config mr mp s data memhdr mem_idx hl]
      exact hb (cb_inserted x mr mp s memhdr).share_cache data.mr_ctrl memhdr.addr
        config.mr_ext_memseg_en
  · rw [cb_hit x config reg mp s data memhdr mem_idx hl]; rfl

/-- One call leaves `dev_gen` or, if it is an unmap, may increment it. -/
theorem run_call_dev_gen (x : mlx5_common_mr) (hb : addr2mr_keeps_gen x)
    (config : mlx5_dev_config) (s : mr_state) (c : mr_call) :
    (run_call x config s c).share_cache.dev_gen = s.share_cache.dev_gen ∨
      (c.is_unmap = true ∧ (run_call x config s c).share_cache.dev_gen =
        (s.share_cache.dev_gen + 1) % 2 ^ x.dev_gen_bits) := by
  cases c with
  | dma_map p reg addr iova len => exact Or.inl (map_dev_gen x p reg s addr iova len)
  | dma_unmap p addr iova len =>
    have h := unmap_dev_gen x p s addr iova len
    by_cases hz : (mlx5_net_dma_unmap x p s addr iova len).2 = 0
    · rw [if_pos hz] at h; exact Or.inr ⟨rfl, h⟩
    · rw [if_neg hz] at h; exact Or.inl h
  | update_ext_mp_cb reg mp data memhdr mem_idx =>
    exact Or.inl (cb_dev_gen x hb config reg mp s data memhdr mem_idx)

/-- Along a sequence of calls with too few unmaps to wrap the counter, `dev_gen`
does not decrease. -/
theorem run_calls_dev_gen (x : mlx5_common_mr) (hb : addr2mr_keeps_gen x)
    (config : mlx5_dev_config) (s : mr_state) (cs : List mr_call)
    (hw : s.share_cache.dev_gen + cs.countP mr_call.is_unmap < 2 ^ x.dev_gen_bits) :
    s.share_cache.dev_gen ≤ (run_calls x config s cs).share_cache.dev_gen := by
  induction cs generalizing s with
  | nil => exact Nat.le_refl _
  | cons c cs ih =>
    rw [List.countP_cons] at hw
    rcases run_call_dev_gen x hb config s c with h | ⟨hu, h⟩
    · have := ih (run_call x config s c) (by rw [h]; omega)
      rw [h] at this
      exact this
    · rw [hu] at hw
      simp only [if_true] at hw
      rw [Nat.mod_eq_of_lt (by omega)] at h
      have := ih (run_call x config s c) (by rw [h]; omega)
      rw [h] at this
      show s.share_cache.dev_gen ≤ (run_calls x config (run_call x config s c) cs).share_cache.dev_gen
      omega

/-! ## The device loop of the memory event callback -/

/-- The loop over the device list calls `mlx5_free_mr_by_addr` on each device
context in turn. -/
theorem foreach_free_mr_by_addr (x : mlx5_common_mr) (addr len : Nat) (lk : rte_rwlock_t)
    (l : List mlx5_dev_ctx_shared) :
    LIST_FOREACH_free_mr_by_addr x addr len lk l =
      (l.map (fun sh => { sh with
          share_cache := x.mlx5_free_mr_by_addr sh.share_cache sh.ibdev_name addr len }),
       l.map (fun sh => (mem_event_step.free_mr_by_addr sh.ibdev_name addr len, lk))) := by
  induction l with
  | nil => rfl
  | cons sh rest ih =>
    rw [LIST_FOREACH_free_mr_by_addr, ih]
    rfl

/-! ## Counting registrations in a trace -/

/-- What the already-registered path of `mlx5_mr_update_ext_mp_cb` adds to the trace. -/
theorem cb_hit_events (x : mlx5_common_mr) (config : mlx5_dev_config) (reg : Option mlx5_mr)
    (mp : rte_mempool) (s : mr_state) (data : mr_update_mp_data)
    (memhdr : rte_mempool_memhdr) (mem_idx : Nat)
    (hl : x.mlx5_mr_lookup_cache s.share_cache.cache memhdr.addr ≠ UINT32_MAX) :
    events (mlx5_mr_update_ext_mp_cb x config reg mp s data memhdr mem_idx).1.trace =
      events s.trace ++ [.read_lock, .lookup_cache memhdr.addr, .read_unlock] := by
  rw [cb_hit x config reg mp s data memhdr mem_idx hl]
  simp [events, rte_rwlock_read_unlock, rte_rwlock_read_lock]

/-- What the failed-registration path of `mlx5_mr_update_ext_mp_cb` adds to the trace. -/
theorem cb_reg_fail_events (x : mlx5_common_mr) (config : mlx5_dev_config)
    (mp : rte_mempool) (s : mr_state) (data : mr_update_mp_data)
    (memhdr : rte_mempool_memhdr) (mem_idx : Nat)
    (hl : x.mlx5_mr_lookup_cache s.share_cache.cache memhdr.addr = UINT32_MAX) :
    events (mlx5_mr_update_ext_mp_cb x config none mp s data memhdr mem_idx).1.trace =
      events s.trace ++ [.read_lock, .lookup_cache memhdr.addr, .read_unlock,
        .create_mr_ext memhdr.addr memhdr.len mp.socket_id] := by
  rw [cb_reg_fail x config mp s data memhdr mem_idx hl]
  simp [events, rte_rwlock_read_unlock, rte_rwlock_read_lock]

/-- What the registering path of `mlx5_mr_update_ext_mp_cb` adds to the trace. -/
theorem cb_ok_events (x : mlx5_common_mr) (config : mlx5_dev_config) (mr : mlx5_mr)
    (mp : rte_mempool) (s : mr_state) (data : mr_update_mp_data)
    (memhdr : rte_mempool_memhdr) (mem_idx : Nat)
    (hl : x.mlx5_mr_lookup_cache s.share_cache.cache memhdr.addr = UINT32_MAX) :
    events (mlx5_mr_update_ext_mp_cb x config (some mr) mp s data memhdr mem_idx).1.trace =
      events s.trace ++ [.read_lock, .lookup_cache memhdr.addr, .read_unlock,
        .create_mr_ext memhdr.addr memhdr.len mp.socket_id, .write_lock,
        .list_insert_head mr, .insert_cache mr, .write_unlock, .addr2mr_bh memhdr.addr] := by
  rw [cb_ok x config mr mp s data memhdr mem_idx hl]
  simp [events, cb_inserted, rte_rwlock_write_unlock, rte_rwlock_write_lock,
    rte_rwlock_read_unlock, rte_rwlock_read_lock, mlx5_mr_insert_cache, LIST_INSERT_HEAD]

/-- One run of `mlx5_mr_update_ext_mp_cb` inserts at most one region, and none when
the lookup hits. -/
theorem cb_insert_count (x : mlx5_common_mr) (config : mlx5_dev_config) (reg : Option mlx5_mr)
    (mp : rte_mempool) (s : mr_state) (data : mr_update_mp_data)
    (memhdr : rte_mempool_memhdr) (mem_idx : Nat) :
    (events (mlx5_mr_update_ext_mp_cb x config reg mp s data memhdr mem_idx).1.trace).countP
        mr_event.is_list_insert_head =
      (events s.trace).countP mr_event.is_list_insert_head +
        (if x.mlx5_mr_lookup_cache s.share_cache.cache memhdr.addr = UINT32_MAX ∧ reg.isSome
          then 1 else 0) := by
  by_cases hl : x.mlx5_mr_lookup_cache s.share_cache.cache memhdr.addr = UINT32_MAX
  · cases reg with
    | none =>
      rw [cb_reg_fail_events x config mp s data memhdr mem_idx hl, List.countP_append]
      simp [List.countP_cons, mr_event.is_list_insert_head]
    | some mr =>
      rw [cb_ok_events x config mr mp s data memhdr mem_idx hl, List.countP_append]
      simp [List.countP_cons, mr_event.is_list_insert_head, hl]
  · rw [cb_hit_events x config reg mp s data memhdr mem_idx hl, List.countP_append]
    simp [List.countP_cons, mr_event.is_list_insert_head, hl]

/-! ## The callback is its lookup followed by its rest -/

/-- The routine `mlx5_mr_update_ext_mp_cb` is the lookup section followed by the rest. -/
theorem cb_eq_sections (x : mlx5_common_mr) (config : mlx5_dev_config) (reg : Option mlx5_mr)
    (mp : rte_mempool) (s : mr_state) (data : mr_update_mp_data)
    (memhdr : rte_mempool_memhdr) (mem_idx : Nat) :
    mlx5_mr_update_ext_mp_cb x config reg mp s data memhdr mem_idx =
      cb_rest x config (cb_lookup x s memhdr).2 reg mp (cb_lookup x s memhdr).1 data memhdr :=
  rfl

/-- The lookup section leaves the shared cache as it was. -/
theorem cb_lookup_share_cache (x : mlx5_common_mr) (s : mr_state)
    (memhdr : rte_mempool_memhdr) :
    (cb_lookup x s memhdr).1.share_cache = s.share_cache := rfl

/-- The lookup section returns what the global cache lookup finds. -/
theorem cb_lookup_lkey (x : mlx5_common_mr) (s : mr_state) (memhdr : rte_mempool_memhdr) :
    (cb_lookup x s memhdr).2 = x.mlx5_mr_lookup_cache s.share_cache.cache memhdr.addr := rfl

/-- The events of the lookup section. -/
theorem cb_lookup_events (x : mlx5_common_mr) (s : mr_state) (memhdr : rte_mempool_memhdr) :
    events (cb_lookup x s memhdr).1.trace =
      events s.trace ++ [.read_lock, .lookup_cache memhdr.addr, .read_unlock] := by
  simp [events, cb_lookup, rte_rwlock_read_unlock, rte_rwlock_read_lock]

/-- The events of the rest of the callback when the lookup missed and the
registration succeeds. -/
theorem cb_rest_events (x : mlx5_common_mr) (config : mlx5_dev_config) (mr : mlx5_mr)
    (mp : rte_mempool) (s : mr_state) (data : mr_update_mp_data)
    (memhdr : rte_mempool_memhdr) :
    events (cb_rest x config UINT32_MAX (some mr) mp s data memhdr).1.trace =
      events s.trace ++ [.create_mr_ext memhdr.addr memhdr.len mp.socket_id, .write_lock,
        .list_insert_head mr, .insert_cache mr, .write_unlock, .addr2mr_bh memhdr.addr] := by
  simp [events, cb_rest, rte_rwlock_write_unlock, rte_rwlock_write_lock, mlx5_mr_insert_cache,
    LIST_INSERT_HEAD]

/-! ## What the routines add to the trace -/

/-- The events of the removing path of `mlx5_net_dma_unmap`. -/
theorem unmap_found_events (x : mlx5_common_mr) (p d : Nat) (s : mr_state)
    (addr iova len : Nat) (i : Fin s.share_cache.mr_list.length)
    (hd : dev_to_eth_dev x p = some d)
    (hl : x.mlx5_mr_lookup_list s.share_cache.mr_list addr = some i) :
    events (mlx5_net_dma_unmap x p s addr iova len).1.trace =
      events s.trace ++ [.write_lock, .lookup_list addr,
        .list_remove (s.share_cache.mr_list.get i), .mr_free (s.share_cache.mr_list.get i),
        .rebuild_cache, .dev_gen_inc, .write_unlock] := by
  rw [unmap_found x p d s addr iova len i hd hl]
  simp [events, rte_rwlock_write_unlock, rte_rwlock_write_lock, dev_gen_inc,
    mlx5_mr_rebuild_cache, mlx5_mr_free, LIST_REMOVE]

/-- The events of the not-registered path of `mlx5_net_dma_unmap`. -/
theorem unmap_not_found_events (x : mlx5_common_mr) (p d : Nat) (s : mr_state)
    (addr iova len : Nat) (hd : dev_to_eth_dev x p = some d)
    (hl : x.mlx5_mr_lookup_list s.share_cache.mr_list addr = none) :
    events (mlx5_net_dma_unmap x p s addr iova len).1.trace =
      events s.trace ++ [.write_lock, .lookup_list addr, .write_unlock] := by
  rw [unmap_not_found x p d s addr iova len hd hl]
  simp [events, rte_rwlock_write_unlock, rte_rwlock_write_lock]

/-- The events of the registering path of `mlx5_net_dma_map`. -/
theorem map_ok_events (x : mlx5_common_mr) (p d : Nat) (mr : mlx5_mr) (s : mr_state)
    (addr iova len : Nat) (hd : dev_to_eth_dev x p = some d) :
    events (mlx5_net_dma_map x p (some mr) s addr iova len).1.trace =
      events s.trace ++ [.create_mr_ext addr len SOCKET_ID_ANY, .write_lock,
        .list_insert_head mr, .insert_cache mr, .write_unlock] := by
  rw [map_ok x p d mr s addr iova len hd]
  simp [events, rte_rwlock_write_unlock, rte_rwlock_write_lock, mlx5_mr_insert_cache,
    LIST_INSERT_HEAD]

/-- The events of the failed-registration path of `mlx5_net_dma_map`. -/
theorem map_reg_fail_events (x : mlx5_common_mr) (p d : Nat) (s : mr_state)
    (addr iova len : Nat) (hd : dev_to_eth_dev x p = some d) :
    events (mlx5_net_dma_map x p none s addr iova len).1.trace =
      events s.trace ++ [.create_mr_ext addr len SOCKET_ID_ANY] := by
  rw [map_reg_fail x p d s addr iova len hd]
  simp [events]

/-- The device loop of the memory event callback keeps the lock as it is. -/
theorem mem_lock_balanced_calls (held : Bool) (addr len : Nat) (lk : rte_rwlock_t)
    (l : List mlx5_dev_ctx_shared) (rest : List mem_event_step) :
    mem_lock_balanced_from held
        ((l.map (fun sh => (mem_event_step.free_mr_by_addr sh.ibdev_name addr len, lk))).map
          Prod.fst ++ rest) =
      mem_lock_balanced_from held rest := by
  induction l with
  | nil => rfl
  | cons sh t ih =>
    simp only [List.map_cons, List.cons_append]
    cases held <;> simpa [mem_lock_balanced_from] using ih

/-- Running a sequence and then another is running their concatenation. -/
theorem run_calls_append (x : mlx5_common_mr) (config : mlx5_dev_config) (s : mr_state)
    (a b : List mr_call) :
    run_calls x config s (a ++ b) = run_calls x config (run_calls x config s a) b := by
  induction a generalizing s with
  | nil => rfl
  | cons c a ih => exact ih (run_call x config s c)

/-- Adding less than a full turn to a counter changes it. -/
theorem mod_add_ne (P g m : Nat) (hg : g < P) (hm0 : 0 < m) (hm : m < P) :
    (g + m) % P ≠ g := by
  by_cases h : g + m < P
  · rw [Nat.mod_eq_of_lt h]; omega
  · rw [Nat.mod_eq_sub_mod (by omega), Nat.mod_eq_of_lt (by omega)]
    omega

/-- Along a sequence of calls `dev_gen` advances, modulo the counter width, by at
most the number of unmap calls. -/
theorem run_calls_dev_gen_mod (x : mlx5_common_mr) (hb : addr2mr_keeps_gen x)
    (config : mlx5_dev_config) (s : mr_state) (cs : List mr_call)
    (hg : s.share_cache.dev_gen < 2 ^ x.dev_gen_bits) :
    ∃ k, k ≤ cs.countP mr_call.is_unmap ∧
      (run_calls x config s cs).share_cache.dev_gen =
        (s.share_cache.dev_gen + k) % 2 ^ x.dev_gen_bits := by
  induction cs generalizing s with
  | nil => exact ⟨0, Nat.le_refl _, (Nat.mod_eq_of_lt hg).symm⟩
  | cons c cs ih =>
    have hP : 0 < 2 ^ x.dev_gen_bits := Nat.two_pow_pos _
    rcases run_call_dev_gen x hb config s c with h | ⟨hu, h⟩
    · obtain ⟨k, hk, hfin⟩ := ih (run_call x config s c) (by rw [h]; exact hg)
      refine ⟨k, ?_, ?_⟩
      · rw [List.countP_cons]; omega
      · show (run_calls x config (run_call x config s c) cs).share_cache.dev_gen = _
        rw [hfin, h]
    · obtain ⟨k, hk, hfin⟩ := ih (run_call x config s c) (by rw [h]; exact Nat.mod_lt _ hP)
      refine ⟨k + 1, ?_, ?_⟩
      · rw [List.countP_cons, hu]; simp only [if_true]; omega
      · show (run_calls x config (run_call x config s c) cs).share_cache.dev_gen = _
        rw [hfin, h, Nat.mod_add_mod]
        congr 1
        omega

/-- One round of map and unmap on a device with no region: the unmap succeeds and
the device has no region again, with the generation incremented. -/
theorem map_unmap_round (w g e : Nat) (t : List (mr_event × mlx5_mr_share_cache)) :
    (mlx5_net_dma_unmap (spec_common_mr_bits w) 0
      (run_call (spec_common_mr_bits w) config_example
        { share_cache := share_cache_empty g, rte_errno := e, trace := t } call_map_a)
      0x1000 0 0x1000).2 = 0 ∧
    (run_calls (spec_common_mr_bits w) config_example
      { share_cache := share_cache_empty g, rte_errno := e, trace := t }
      [call_map_a, call_unmap_a]).share_cache = share_cache_empty ((g + 1) % 2 ^ w) :=
  ⟨rfl, rfl⟩

/-- After `n` rounds of map and unmap on a device with no region, the device has no
region and the generation has advanced by `n` modulo the counter width. -/
theorem map_unmap_rounds_share_cache (w n : Nat) (s : mr_state) (g : Nat) (hg : g < 2 ^ w)
    (hs : s.share_cache = share_cache_empty g) :
    (run_calls (spec_common_mr_bits w) config_example s (map_unmap_rounds n)).share_cache =
      share_cache_empty ((g + n) % 2 ^ w) := by
  induction n generalizing s g with
  | zero => rw [Nat.add_zero, Nat.mod_eq_of_lt hg]; exact hs
  | succ n ih =>
    obtain ⟨sc, e, t⟩ := s
    simp only at hs
    subst hs
    have hP : 0 < 2 ^ w := Nat.two_pow_pos _
    have hround := (map_unmap_round w g e t).2
    show (run_calls (spec_common_mr_bits w) config_example
      (run_calls (spec_common_mr_bits w) config_example
        { share_cache := share_cache_empty g, rte_errno := e, trace := t }
        [call_map_a, call_unmap_a]) (map_unmap_rounds n)).share_cache = _
    rw [ih _ ((g + 1) % 2 ^ w) (Nat.mod_lt _ hP) hround, Nat.mod_add_mod]
    congr 2
    omega

/-! ## C1: unmap completeness -/

/-- C1, counterexample.  With the regions `[0x1000, 0x2000)` and `[0x2000, 0x3000)`
registered, `mlx5_net_dma_unmap(dev, 0x1000, iova, 0x2000)` returns 0, yet a region
that intersects `[0x1000, 0x3000)` is still in the MR list, and the rebuilt global
cache still translates `0x2800` to its key 9: `len` is not read and only the one
region found for `addr` is removed. -/
theorem unmap_completeness_counterexample :
    (mlx5_net_dma_unmap spec_common_mr 0 state_ab 0x1000 0 0x2000).2 = 0 ∧
    (∃ mr ∈ (mlx5_net_dma_unmap spec_common_mr 0 state_ab 0x1000 0 0x2000).1.share_cache.mr_list,
      mr.intersects 0x1000 0x2000) ∧
    spec_common_mr.mlx5_mr_lookup_cache
      (mlx5_net_dma_unmap spec_common_mr 0 state_ab 0x1000 0 0x2000).1.share_cache.cache
      0x2800 = 9 := by
  refine ⟨by decide, ⟨mr_b, by decide, 0x2000, ⟨by decide, by decide⟩, by decide, by decide⟩,
    by decide⟩

/-- C1, amended.  For every registry state whose regions are pairwise
non-overlapping and every call `mlx5_net_dma_unmap(dev, addr, iova, len)` that
returns 0 and whose range `[addr, addr + len)` ends inside the region found for
`addr`, afterwards no region left in the MR list intersects `[addr, addr + len)`,
and (the rebuild projecting the list faithfully) a global cache lookup of any
address of the range misses. -/
theorem unmap_completeness_within_region (x : mlx5_common_mr)
    (hs : lookup_list_sound x) (hr : rebuild_faithful x)
    (p : Nat) (s : mr_state) (addr iova len : Nat)
    (hret : (mlx5_net_dma_unmap x p s addr iova len).2 = 0)
    (hpw : s.share_cache.mr_list.Pairwise mr_disjoint)
    (hin : ∀ i, x.mlx5_mr_lookup_list s.share_cache.mr_list addr = some i →
      addr + len ≤ (s.share_cache.mr_list.get i).end_) :
    (∀ mr ∈ (mlx5_net_dma_unmap x p s addr iova len).1.share_cache.mr_list,
      ¬ mr.intersects addr len) ∧
    (∀ a, addr ≤ a → a < addr + len →
      x.mlx5_mr_lookup_cache
        (mlx5_net_dma_unmap x p s addr iova len).1.share_cache.cache a = UINT32_MAX) := by
  obtain ⟨d, i, hd, hl⟩ := unmap_ret_zero x p s addr iova len hret
  have hlist : ∀ mr ∈ s.share_cache.mr_list.eraseIdx i.val, ¬ mr.intersects addr len := by
    intro mr hmr ⟨a, ⟨ha1, ha2⟩, ha3, ha4⟩
    have hc := hs _ _ _ hl
    have hb := hin i hl
    obtain ⟨hc1, hc2⟩ := hc
    rcases disjoint_of_mem_eraseIdx _ i hpw mr hmr with h | h <;> omega
  rw [unmap_found x p d s addr iova len i hd hl]
  refine ⟨hlist, ?_⟩
  intro a ha1 ha2
  by_contra hne
  obtain ⟨mr, hmr, hc, _⟩ := hr (s.share_cache.mr_list.eraseIdx i.val) s.share_cache.cache a hne
  exact hlist mr hmr ⟨a, hc, ha1, ha2⟩


/-- C1, witness of the amended claim: unmapping `[0x1000, 0x2000)` from the state
that holds `[0x1000, 0x2000)` and `[0x2000, 0x3000)`. -/
theorem unmap_completeness_within_region_witness :
    (mlx5_net_dma_unmap spec_common_mr 0 state_ab 0x1000 0 0x1000).2 = 0 ∧
    (∀ mr ∈ (mlx5_net_dma_unmap spec_common_mr 0 state_ab 0x1000 0 0x1000).1.share_cache.mr_list,
      ¬ mr.intersects 0x1000 0x1000) ∧
    (∀ a, 0x1000 ≤ a → a < 0x1000 + 0x1000 →
      spec_common_mr.mlx5_mr_lookup_cache
        (mlx5_net_dma_unmap spec_common_mr 0 state_ab 0x1000 0 0x1000).1.share_cache.cache a
          = UINT32_MAX) :=
  ⟨by decide,
   unmap_completeness_within_region spec_common_mr spec_lookup_list_sound
    spec_rebuild_faithful 0 state_ab 0x1000 0 0x1000 (by decide)
    (by simp [state_ab, mr_disjoint, mr_a, mr_b])
    (by decide)⟩

/-! ## C2: coherence -/

/-- C2.  Assume that the external insert and rebuild routines (and the bottom-half
translation the callback ends with) project the MR list faithfully.  Then for every
sequence of `mlx5_net_dma_map`, `mlx5_net_dma_unmap` and `mlx5_mr_update_ext_mp_cb`
calls run from a coherent state, at the end and at every recorded point where the
write lock is not held, a global cache lookup of `addr` that returns a key `K`
other than `UINT32_MAX` implies that the MR list holds a region whose extent
contains `addr` and whose key is `K`. -/
theorem global_cache_coherence (x : mlx5_common_mr) (hi : insert_faithful x)
    (hr : rebuild_faithful x) (hb : addr2mr_faithful x) (config : mlx5_dev_config)
    (s : mr_state) (cs : List mr_call)
    (hs : coherent x s.share_cache.mr_list s.share_cache.cache)
    (ht : trace_coherent x s.trace) :
    (∀ addr K, x.mlx5_mr_lookup_cache (run_calls x config s cs).share_cache.cache addr = K →
      K ≠ UINT32_MAX →
      ∃ mr ∈ (run_calls x config s cs).share_cache.mr_list,
        mr.start ≤ addr ∧ addr < mr.end_ ∧ mr.lkey = K) ∧
    (∀ p ∈ (run_calls x config s cs).trace, p.2.rwlock.writer = false →
      ∀ addr K, x.mlx5_mr_lookup_cache p.2.cache addr = K → K ≠ UINT32_MAX →
        ∃ mr ∈ p.2.mr_list, mr.start ≤ addr ∧ addr < mr.end_ ∧ mr.lkey = K) := by
  obtain ⟨h1, h2⟩ := run_calls_coherent x hi hr hb config s cs hs ht
  constructor
  · intro addr K hK hne
    subst hK
    obtain ⟨mr, hmr, hc, hk⟩ := h1 addr hne
    exact ⟨mr, hmr, hc.1, hc.2, hk⟩
  · intro p hp hw addr K hK hne
    subst hK
    obtain ⟨mr, hmr, hc, hk⟩ := h2 p hp hw addr hne
    exact ⟨mr, hmr, hc.1, hc.2, hk⟩

/-- C2, witness: a map of `[0x1000, 0x2000)`, a callback that registers the chunk
`[0x2000, 0x3000)` and an unmap of `0x1000`, run from the empty state; the lookup of
`0x2800` then returns the key 9 of the region that holds it. -/
theorem global_cache_coherence_witness :
    spec_common_mr.mlx5_mr_lookup_cache
        (run_calls spec_common_mr config_example state_empty calls_example).share_cache.cache
        0x2800 = 9 ∧
    ((∀ addr K, spec_common_mr.mlx5_mr_lookup_cache
        (run_calls spec_common_mr config_example state_empty calls_example).share_cache.cache
        addr = K → K ≠ UINT32_MAX →
      ∃ mr ∈ (run_calls spec_common_mr config_example state_empty calls_example).share_cache.mr_list,
        mr.start ≤ addr ∧ addr < mr.end_ ∧ mr.lkey = K) ∧
    (∀ p ∈ (run_calls spec_common_mr config_example state_empty calls_example).trace,
      p.2.rwlock.writer = false →
      ∀ addr K, spec_common_mr.mlx5_mr_lookup_cache p.2.cache addr = K → K ≠ UINT32_MAX →
        ∃ mr ∈ p.2.mr_list, mr.start ≤ addr ∧ addr < mr.end_ ∧ mr.lkey = K)) :=
  ⟨by decide,
   global_cache_coherence spec_common_mr spec_insert_faithful spec_rebuild_faithful
    spec_addr2mr_faithful config_example state_empty calls_example
    (fun _ h => absurd rfl h) (fun _ hp => absurd hp (List.not_mem_nil _))⟩

/-! ## C3: monotonic generation -/

/-- C3, counterexample.  From the empty state `mlx5_net_dma_map` of
`[0x1000, 0x2000)` returns 0 and adds the region to the MR list, and `dev_gen` is
the same after the call as before it: not strictly larger.  And whatever the width
`w` of the counter, a successful `mlx5_net_dma_unmap` on a state whose `dev_gen` is
`2 ^ w - 1` removes the region and leaves `dev_gen` at 0. -/
theorem generation_strict_counterexample :
    ((mlx5_net_dma_map spec_common_mr 0 (some mr_a) state_empty 0x1000 0 0x1000).2 = 0 ∧
      state_empty.share_cache.mr_list = [] ∧
      (mlx5_net_dma_map spec_common_mr 0 (some mr_a) state_empty 0x1000 0
        0x1000).1.share_cache.mr_list = [mr_a] ∧
      ¬ (state_empty.share_cache.dev_gen <
        (mlx5_net_dma_map spec_common_mr 0 (some mr_a) state_empty 0x1000 0
          0x1000).1.share_cache.dev_gen)) ∧
    (∀ w : Nat,
      (mlx5_net_dma_unmap (spec_common_mr_bits w) 0 (state_gen_max w) 0x1000 0 0x1000).2 = 0 ∧
      (state_gen_max w).share_cache.mr_list = [mr_a] ∧
      (mlx5_net_dma_unmap (spec_common_mr_bits w) 0 (state_gen_max w) 0x1000 0
        0x1000).1.share_cache.mr_list = [] ∧
      (state_gen_max w).share_cache.dev_gen = 2 ^ w - 1 ∧
      (mlx5_net_dma_unmap (spec_common_mr_bits w) 0 (state_gen_max w) 0x1000 0
        0x1000).1.share_cache.dev_gen = 0) := by
  refine ⟨by decide, ?_⟩
  intro w
  have hd : dev_to_eth_dev (spec_common_mr_bits w) 0 = some 0 := rfl
  have hl : (spec_common_mr_bits w).mlx5_mr_lookup_list (state_gen_max w).share_cache.mr_list
      0x1000 = some ⟨0, Nat.succ_pos _⟩ := rfl
  rw [unmap_found (spec_common_mr_bits w) 0 0 (state_gen_max w) 0x1000 0 0x1000 _ hd hl]
  refine ⟨rfl, rfl, rfl, rfl, ?_⟩
  show (2 ^ w - 1 + 1) % 2 ^ w = 0
  rw [Nat.sub_add_cancel Nat.one_le_two_pow, Nat.mod_self]

/-- C3, amended.  With `mlx5_mr_addr2mr_bh` leaving `dev_gen` as it is: across every
sequence of `mlx5_net_dma_map`, `mlx5_net_dma_unmap` and `mlx5_mr_update_ext_mp_cb`
calls with too few unmaps to wrap the counter, `dev_gen` never decreases; it is
larger by one after every successful `mlx5_net_dma_unmap` (the call that removes a
region) that does not wrap it; and `mlx5_net_dma_map` and
`mlx5_mr_update_ext_mp_cb`, the calls that add a region, leave it unchanged. -/
theorem generation_monotone (x : mlx5_common_mr) (hb : addr2mr_keeps_gen x)
    (config : mlx5_dev_config) :
    (∀ (s : mr_state) (cs : List mr_call),
      s.share_cache.dev_gen + cs.countP mr_call.is_unmap < 2 ^ x.dev_gen_bits →
      s.share_cache.dev_gen ≤ (run_calls x config s cs).share_cache.dev_gen) ∧
    (∀ (p : Nat) (s : mr_state) (addr iova len : Nat),
      (mlx5_net_dma_unmap x p s addr iova len).2 = 0 →
      s.share_cache.dev_gen + 1 < 2 ^ x.dev_gen_bits →
      (mlx5_net_dma_unmap x p s addr iova len).1.share_cache.dev_gen =
        s.share_cache.dev_gen + 1) ∧
    (∀ (p : Nat) (reg : Option mlx5_mr) (s : mr_state) (addr iova len : Nat),
      (mlx5_net_dma_map x p reg s addr iova len).1.share_cache.dev_gen =
        s.share_cache.dev_gen) ∧
    (∀ (reg : Option mlx5_mr) (mp : rte_mempool) (s : mr_state) (data : mr_update_mp_data)
      (memhdr : rte_mempool_memhdr) (mem_idx : Nat),
      (mlx5_mr_update_ext_mp_cb x config reg mp s data memhdr mem_idx).1.share_cache.dev_gen =
        s.share_cache.dev_gen) := by
  refine ⟨fun s cs hw => run_calls_dev_gen x hb config s cs hw, ?_,
    fun p reg s addr iova len => map_dev_gen x p reg s addr iova len,
    fun reg mp s data memhdr mem_idx => cb_dev_gen x hb config reg mp s data memhdr mem_idx⟩
  intro p s addr iova len hz hw
  rw [unmap_dev_gen, if_pos hz, Nat.mod_eq_of_lt hw]

/-- C3, witness of the amended claim: the counter goes from 0 to 1 along the example
sequence, whose last call is a successful unmap. -/
theorem generation_monotone_witness :
    (run_calls spec_common_mr config_example state_empty calls_example).share_cache.dev_gen = 1 ∧
    state_empty.share_cache.dev_gen ≤
      (run_calls spec_common_mr config_example state_empty calls_example).share_cache.dev_gen :=
  ⟨by decide,
   (generation_monotone spec_common_mr spec_addr2mr_keeps_gen config_example).1
    state_empty calls_example (by decide)⟩

/-! ## C4: unmap of an unregistered address -/

/-- C4.  In every state in which `mlx5_mr_lookup_list` finds no region containing
`addr` (the lookup is made once the matching ethdev is found), `mlx5_net_dma_unmap`
returns -1 with `rte_errno` set to `EINVAL` and leaves the MR list, the global cache
and `dev_gen` exactly as they were; it takes and releases the write lock and makes
the lookup, with no removal, no deregistration, no rebuild and no generation bump. -/
theorem unmap_unregistered (x : mlx5_common_mr) (p d : Nat) (s : mr_state)
    (addr iova len : Nat)
    (hd : dev_to_eth_dev x p = some d)
    (hl : x.mlx5_mr_lookup_list s.share_cache.mr_list addr = none) :
    (mlx5_net_dma_unmap x p s addr iova len).2 = -1 ∧
    (mlx5_net_dma_unmap x p s addr iova len).1.rte_errno = EINVAL ∧
    (mlx5_net_dma_unmap x p s addr iova len).1.share_cache.mr_list = s.share_cache.mr_list ∧
    (mlx5_net_dma_unmap x p s addr iova len).1.share_cache.cache = s.share_cache.cache ∧
    (mlx5_net_dma_unmap x p s addr iova len).1.share_cache.dev_gen = s.share_cache.dev_gen ∧
    events (mlx5_net_dma_unmap x p s addr iova len).1.trace =
      events s.trace ++ [.write_lock, .lookup_list addr, .write_unlock] := by
  rw [unmap_not_found x p d s addr iova len hd hl]
  refine ⟨rfl, rfl, rfl, rfl, rfl, ?_⟩
  simp [events, rte_rwlock_write_unlock, rte_rwlock_write_lock]

/-- C4, witness: unmapping `0x5000`, which no region of the example state holds. -/
theorem unmap_unregistered_witness :
    (mlx5_net_dma_unmap spec_common_mr 0 state_ab 0x5000 0 0x1000).2 = -1 ∧
    (mlx5_net_dma_unmap spec_common_mr 0 state_ab 0x5000 0 0x1000).1.rte_errno = EINVAL ∧
    (mlx5_net_dma_unmap spec_common_mr 0 state_ab 0x5000 0 0x1000).1.share_cache.mr_list =
      state_ab.share_cache.mr_list ∧
    (mlx5_net_dma_unmap spec_common_mr 0 state_ab 0x5000 0 0x1000).1.share_cache.cache =
      state_ab.share_cache.cache ∧
    (mlx5_net_dma_unmap spec_common_mr 0 state_ab 0x5000 0 0x1000).1.share_cache.dev_gen =
      state_ab.share_cache.dev_gen ∧
    events (mlx5_net_dma_unmap spec_common_mr 0 state_ab 0x5000 0 0x1000).1.trace =
      events state_ab.trace ++ [.write_lock, .lookup_list 0x5000, .write_unlock] :=
  unmap_unregistered spec_common_mr 0 0 state_ab 0x5000 0 0x1000 (by decide) (by decide)

/-! ## C5: registration failure inserts nothing -/

/-- C5.  Whenever `mlx5_create_mr_ext` returns NULL: `mlx5_net_dma_map` (which calls
it once the matching ethdev is found) returns -1 with `rte_errno` `EINVAL`, and
`mlx5_mr_update_ext_mp_cb` (which calls it once the global cache lookup missed) sets
`data->ret` to -1; in both cases the shared cache (MR list, global cache, `dev_gen`)
is left as it was, and so is the local cache of the queue. -/
theorem registration_failure_inserts_nothing (x : mlx5_common_mr) (config : mlx5_dev_config) :
    (∀ (p d : Nat) (s : mr_state) (addr iova len : Nat),
      dev_to_eth_dev x p = some d →
      (mlx5_net_dma_map x p none s addr iova len).2 = -1 ∧
      (mlx5_net_dma_map x p none s addr iova len).1.rte_errno = EINVAL ∧
      (mlx5_net_dma_map x p none s addr iova len).1.share_cache = s.share_cache) ∧
    (∀ (mp : rte_mempool) (s : mr_state) (data : mr_update_mp_data)
      (memhdr : rte_mempool_memhdr) (mem_idx : Nat),
      x.mlx5_mr_lookup_cache s.share_cache.cache memhdr.addr = UINT32_MAX →
      (mlx5_mr_update_ext_mp_cb x config none mp s data memhdr mem_idx).2.ret = -1 ∧
      (mlx5_mr_update_ext_mp_cb x config none mp s data memhdr mem_idx).1.share_cache =
        s.share_cache ∧
      (mlx5_mr_update_ext_mp_cb x config none mp s data memhdr mem_idx).2.mr_ctrl =
        data.mr_ctrl) := by
  constructor
  · intro p d s addr iova len hd
    rw [map_reg_fail x p d s addr iova len hd]
    exact ⟨rfl, rfl, rfl⟩
  · intro mp s data memhdr mem_idx hl
    rw [cb_reg_fail x config mp s data memhdr mem_idx hl]
    exact ⟨rfl, rfl, rfl⟩

/-- C5, witness: a failed registration of `[0x2000, 0x3000)` on the state that holds
`[0x1000, 0x2000)`, through the map and through the callback. -/
theorem registration_failure_inserts_nothing_witness :
    ((mlx5_net_dma_map spec_common_mr 0 none state_a 0x2000 0 0x1000).2 = -1 ∧
      (mlx5_net_dma_map spec_common_mr 0 none state_a 0x2000 0 0x1000).1.rte_errno = EINVAL ∧
      (mlx5_net_dma_map spec_common_mr 0 none state_a 0x2000 0 0x1000).1.share_cache =
        state_a.share_cache) ∧
    ((mlx5_mr_update_ext_mp_cb spec_common_mr config_example none mp_example state_a
        data_example memhdr_b 0).2.ret = -1 ∧
      (mlx5_mr_update_ext_mp_cb spec_common_mr config_example none mp_example state_a
        data_example memhdr_b 0).1.share_cache = state_a.share_cache ∧
      (mlx5_mr_update_ext_mp_cb spec_common_mr config_example none mp_example state_a
        data_example memhdr_b 0).2.mr_ctrl = data_example.mr_ctrl) :=
  ⟨(registration_failure_inserts_nothing spec_common_mr config_example).1
      0 0 state_a 0x2000 0 0x1000 (by decide),
   (registration_failure_inserts_nothing spec_common_mr config_example).2
      mp_example state_a data_example memhdr_b 0 (by decide)⟩

/-! ## C6: duplicate insert -/

/-- C6, counterexample.  The state holds one region with extent `[0x1000, 0x2000)`;
`mlx5_net_dma_map` of the same extent, the registration succeeding, returns 0,
leaves `rte_errno` alone, and the MR list then holds two regions for that extent. -/
theorem duplicate_insert_counterexample :
    state_a.share_cache.mr_list = [mr_a] ∧
    (mlx5_net_dma_map spec_common_mr 0 (some mr_a2) state_a 0x1000 0 0x1000).2 = 0 ∧
    (mlx5_net_dma_map spec_common_mr 0 (some mr_a2) state_a 0x1000 0 0x1000).1.rte_errno =
      state_a.rte_errno ∧
    (mlx5_net_dma_map spec_common_mr 0 (some mr_a2) state_a 0x1000 0 0x1000).1.share_cache.mr_list
      = [mr_a2, mr_a] := by
  decide

/-- C6, amended.  For every registry state that already holds a region whose extent
is exactly `[addr, addr + len)` and a matching ethdev, `mlx5_net_dma_map` of the same
extent makes no duplicate check: when the registration succeeds it returns 0 and
puts the new region at the head of the MR list in front of the existing one, so
that the list holds at least two regions for the extent; it fails only when the
registration fails, with -1 and `EINVAL`, and then the MR list is unchanged. -/
theorem duplicate_insert_accepted (x : mlx5_common_mr) (p d : Nat) (s : mr_state)
    (addr iova len : Nat)
    (hd : dev_to_eth_dev x p = some d)
    (hdup : ∃ m ∈ s.share_cache.mr_list, m.start = addr ∧ m.end_ = addr + len) :
    (∀ mr : mlx5_mr, mr.start = addr → mr.end_ = addr + len →
      (mlx5_net_dma_map x p (some mr) s addr iova len).2 = 0 ∧
      (mlx5_net_dma_map x p (some mr) s addr iova len).1.share_cache.mr_list =
        mr :: s.share_cache.mr_list ∧
      2 ≤ ((mlx5_net_dma_map x p (some mr) s addr iova len).1.share_cache.mr_list.filter
        (fun m => decide (m.start = addr) && decide (m.end_ = addr + len))).length) ∧
    ((mlx5_net_dma_map x p none s addr iova len).2 = -1 ∧
      (mlx5_net_dma_map x p none s addr iova len).1.rte_errno = EINVAL ∧
      (mlx5_net_dma_map x p none s addr iova len).1.share_cache.mr_list =
        s.share_cache.mr_list) := by
  constructor
  · intro mr h1 h2
    rw [map_ok x p d mr s addr iova len hd]
    refine ⟨rfl, rfl, ?_⟩
    show 2 ≤ ((mr :: s.share_cache.mr_list).filter
      (fun m => decide (m.start = addr) && decide (m.end_ = addr + len))).length
    obtain ⟨m, hm, hm1, hm2⟩ := hdup
    rw [List.filter_cons_of_pos (by simp [h1, h2]), List.length_cons]
    have hmem : m ∈ s.share_cache.mr_list.filter
        (fun m => decide (m.start = addr) && decide (m.end_ = addr + len)) := by
      rw [List.mem_filter]
      exact ⟨hm, by simp [hm1, hm2]⟩
    have := List.length_pos_of_mem hmem
    omega
  · rw [map_reg_fail x p d s addr iova len hd]
    exact ⟨rfl, rfl, rfl⟩

/-- C6, witness of the amended claim: a second map of `[0x1000, 0x2000)`. -/
theorem duplicate_insert_accepted_witness :
    (mlx5_net_dma_map spec_common_mr 0 (some mr_a2) state_a 0x1000 0 0x1000).2 = 0 ∧
    (mlx5_net_dma_map spec_common_mr 0 (some mr_a2) state_a 0x1000 0 0x1000).1.share_cache.mr_list
      = mr_a2 :: state_a.share_cache.mr_list ∧
    2 ≤ ((mlx5_net_dma_map spec_common_mr 0 (some mr_a2) state_a 0x1000 0
      0x1000).1.share_cache.mr_list.filter
        (fun m => decide (m.start = 0x1000) && decide (m.end_ = 0x1000 + 0x1000))).length :=
  (duplicate_insert_accepted spec_common_mr 0 0 state_a 0x1000 0 0x1000 (by decide)
    ⟨mr_a, by decide, by decide, by decide⟩).1 mr_a2 (by decide) (by decide)

/-! ## C7: cache update after a registry mutation -/

/-- C7, counterexample.  `mlx5_net_dma_map` of `[0x1000, 0x2000)` on the empty state
changes the MR list and releases the write lock after `mlx5_mr_insert_cache`; no
`mlx5_mr_rebuild_cache` is executed. -/
theorem rebuild_on_mutation_counterexample :
    events (mlx5_net_dma_map spec_common_mr 0 (some mr_a) state_empty 0x1000 0 0x1000).1.trace =
      [.create_mr_ext 0x1000 0x1000 SOCKET_ID_ANY, .write_lock, .list_insert_head mr_a,
       .insert_cache mr_a, .write_unlock] ∧
    mr_event.rebuild_cache ∉
      events (mlx5_net_dma_map spec_common_mr 0 (some mr_a) state_empty 0x1000 0 0x1000).1.trace := by
  decide

/-- C7, amended.  In `mlx5_net_dma_unmap` the removal from the MR list is followed,
before the write lock is released, by a whole-cache rebuild
(`mlx5_mr_rebuild_cache`), and the cache is the rebuild of the new list.  In
`mlx5_net_dma_map` and `mlx5_mr_update_ext_mp_cb` the insertion into the MR list is
followed, before the write lock is released, by `mlx5_mr_insert_cache` of the new
region, an insertion into the existing cache and not a rebuild. -/
theorem cache_update_on_mutation (x : mlx5_common_mr) (config : mlx5_dev_config) :
    (∀ (p d : Nat) (s : mr_state) (addr iova len : Nat)
      (i : Fin s.share_cache.mr_list.length),
      dev_to_eth_dev x p = some d →
      x.mlx5_mr_lookup_list s.share_cache.mr_list addr = some i →
      events (mlx5_net_dma_unmap x p s addr iova len).1.trace =
        events s.trace ++ [.write_lock, .lookup_list addr,
          .list_remove (s.share_cache.mr_list.get i), .mr_free (s.share_cache.mr_list.get i),
          .rebuild_cache, .dev_gen_inc, .write_unlock] ∧
      (mlx5_net_dma_unmap x p s addr iova len).1.share_cache.cache =
        x.mlx5_mr_rebuild_cache (s.share_cache.mr_list.eraseIdx i.val) s.share_cache.cache) ∧
    (∀ (p d : Nat) (mr : mlx5_mr) (s : mr_state) (addr iova len : Nat),
      dev_to_eth_dev x p = some d →
      events (mlx5_net_dma_map x p (some mr) s addr iova len).1.trace =
        events s.trace ++ [.create_mr_ext addr len SOCKET_ID_ANY, .write_lock,
          .list_insert_head mr, .insert_cache mr, .write_unlock] ∧
      (mlx5_net_dma_map x p (some mr) s addr iova len).1.share_cache.cache =
        x.mlx5_mr_insert_cache s.share_cache.cache mr) ∧
    (∀ (mr : mlx5_mr) (mp : rte_mempool) (s : mr_state) (data : mr_update_mp_data)
      (memhdr : rte_mempool_memhdr) (mem_idx : Nat),
      x.mlx5_mr_lookup_cache s.share_cache.cache memhdr.addr = UINT32_MAX →
      events (mlx5_mr_update_ext_mp_cb x config (some mr) mp s data memhdr mem_idx).1.trace =
        events s.trace ++ [.read_lock, .lookup_cache memhdr.addr, .read_unlock,
          .create_mr_ext memhdr.addr memhdr.len mp.socket_id, .write_lock,
          .list_insert_head mr, .insert_cache mr, .write_unlock, .addr2mr_bh memhdr.addr] ∧
      (cb_inserted x mr mp s memhdr).share_cache.cache =
        x.mlx5_mr_insert_cache s.share_cache.cache mr) := by
  refine ⟨?_, ?_, ?_⟩
  · intro p d s addr iova len i hd hl
    rw [unmap_found x p d s addr iova len i hd hl]
    refine ⟨?_, rfl⟩
    simp [events, rte_rwlock_write_unlock, rte_rwlock_write_lock, dev_gen_inc,
      mlx5_mr_rebuild_cache, mlx5_mr_free, LIST_REMOVE]
  · intro p d mr s addr iova len hd
    rw [map_ok x p d mr s addr iova len hd]
    refine ⟨?_, rfl⟩
    simp [events, rte_rwlock_write_unlock, rte_rwlock_write_lock, mlx5_mr_insert_cache,
      LIST_INSERT_HEAD]
  · intro mr mp s data memhdr mem_idx hl
    rw [cb_ok x config mr mp s data memhdr mem_idx hl]
    refine ⟨?_, rfl⟩
    simp [events, cb_inserted, rte_rwlock_write_unlock, rte_rwlock_write_lock,
      rte_rwlock_read_unlock, rte_rwlock_read_lock, mlx5_mr_insert_cache, LIST_INSERT_HEAD]

/-- C7, witness of the amended claim: the unmap of `0x1000` on the example state
rebuilds the cache from the one region left. -/
theorem cache_update_on_mutation_witness :
    events (mlx5_net_dma_unmap spec_common_mr 0 state_ab 0x1000 0 0x1000).1.trace =
      events state_ab.trace ++ [.write_lock, .lookup_list 0x1000, .list_remove mr_a,
        .mr_free mr_a, .rebuild_cache, .dev_gen_inc, .write_unlock] ∧
    (mlx5_net_dma_unmap spec_common_mr 0 state_ab 0x1000 0 0x1000).1.share_cache.cache =
      spec_rebuild_cache [mr_b] state_ab.share_cache.cache :=
  (cache_update_on_mutation spec_common_mr config_example).1 0 0 state_ab 0x1000 0 0x1000
    ⟨0, by decide⟩ (by decide) (by decide)

/-! ## C8: what runs under the write lock when a region is registered -/

/-- C8, counterexample.  In `mlx5_net_dma_map` of `[0x1000, 0x2000)` on the empty
state the call of `mlx5_create_mr_ext` is the first primitive and runs with the
write lock not held; the lock is taken after it. -/
theorem registration_under_lock_counterexample :
    state_empty.share_cache.rwlock.writer = false ∧
    lock_view (mlx5_net_dma_map spec_common_mr 0 (some mr_a) state_empty 0x1000 0 0x1000).1.trace =
      [(.create_mr_ext 0x1000 0x1000 SOCKET_ID_ANY, false), (.write_lock, true),
       (.list_insert_head mr_a, true), (.insert_cache mr_a, true), (.write_unlock, false)] := by
  decide

/-- C8, amended.  On the registering path of `mlx5_net_dma_map` and of
`mlx5_mr_update_ext_mp_cb`, the insertion into the MR list and the global cache
update are performed while the write lock is held, between its acquisition and its
release; the hardware registration call (`mlx5_create_mr_ext`) is made before the
write lock is acquired, the lock being as it was on entry. -/
theorem insertion_under_write_lock (x : mlx5_common_mr) (config : mlx5_dev_config) :
    (∀ (p d : Nat) (mr : mlx5_mr) (s : mr_state) (addr iova len : Nat),
      dev_to_eth_dev x p = some d →
      lock_view (mlx5_net_dma_map x p (some mr) s addr iova len).1.trace =
        lock_view s.trace ++
          [(.create_mr_ext addr len SOCKET_ID_ANY, s.share_cache.rwlock.writer),
           (.write_lock, true), (.list_insert_head mr, true), (.insert_cache mr, true),
           (.write_unlock, false)]) ∧
    (∀ (mr : mlx5_mr) (mp : rte_mempool) (s : mr_state) (data : mr_update_mp_data)
      (memhdr : rte_mempool_memhdr) (mem_idx : Nat),
      x.mlx5_mr_lookup_cache s.share_cache.cache memhdr.addr = UINT32_MAX →
      lock_view (cb_inserted x mr mp s memhdr).trace =
        lock_view s.trace ++
          [(.read_lock, s.share_cache.rwlock.writer),
           (.lookup_cache memhdr.addr, s.share_cache.rwlock.writer),
           (.read_unlock, s.share_cache.rwlock.writer),
           (.create_mr_ext memhdr.addr memhdr.len mp.socket_id, s.share_cache.rwlock.writer),
           (.write_lock, true), (.list_insert_head mr, true), (.insert_cache mr, true),
           (.write_unlock, false)] ∧
      events (mlx5_mr_update_ext_mp_cb x config (some mr) mp s data memhdr mem_idx).1.trace =
        events (cb_inserted x mr mp s memhdr).trace ++ [.addr2mr_bh memhdr.addr]) := by
  constructor
  · intro p d mr s addr iova len hd
    rw [map_ok x p d mr s addr iova len hd]
    simp [lock_view, rte_rwlock_write_unlock, rte_rwlock_write_lock, mlx5_mr_insert_cache,
      LIST_INSERT_HEAD]
  · intro mr mp s data memhdr mem_idx hl
    rw [cb_ok x config mr mp s data memhdr mem_idx hl]
    constructor
    · simp [lock_view, cb_inserted, rte_rwlock_write_unlock, rte_rwlock_write_lock,
        rte_rwlock_read_unlock, rte_rwlock_read_lock, mlx5_mr_insert_cache, LIST_INSERT_HEAD]
    · simp [events]

/-- C8, witness of the amended claim: the callback registering the chunk
`[0x2000, 0x3000)` on the state that holds `[0x1000, 0x2000)`. -/
theorem insertion_under_write_lock_witness :
    lock_view (cb_inserted spec_common_mr mr_b mp_example state_a memhdr_b).trace =
      lock_view state_a.trace ++
        [(.read_lock, false), (.lookup_cache 0x2000, false), (.read_unlock, false),
         (.create_mr_ext 0x2000 0x1000 0, false),
         (.write_lock, true), (.list_insert_head mr_b, true), (.insert_cache mr_b, true),
         (.write_unlock, false)] ∧
    events (mlx5_mr_update_ext_mp_cb spec_common_mr config_example (some mr_b) mp_example
        state_a data_example memhdr_b 0).1.trace =
      events (cb_inserted spec_common_mr mr_b mp_example state_a memhdr_b).trace ++
        [.addr2mr_bh 0x2000] :=
  (insertion_under_write_lock spec_common_mr config_example).2 mr_b mp_example state_a
    data_example memhdr_b 0 (by decide)

/-! ## C9: removal and publication are one critical section -/

/-- C9.  On the success path of `mlx5_net_dma_unmap` (a matching ethdev, a region
found for `addr`) the function returns 0 and executes, in this order and with the
write lock held from the first to the last but one: one write-lock acquisition, the
list lookup, the removal from the MR list, the deregistration (`mlx5_mr_free`), the
cache rebuild, the `dev_gen` increment, and one write-lock release; the lock is not
released between the removal and the rebuild. -/
theorem unmap_critical_section (x : mlx5_common_mr) (p d : Nat) (s : mr_state)
    (addr iova len : Nat) (i : Fin s.share_cache.mr_list.length)
    (hd : dev_to_eth_dev x p = some d)
    (hl : x.mlx5_mr_lookup_list s.share_cache.mr_list addr = some i) :
    (mlx5_net_dma_unmap x p s addr iova len).2 = 0 ∧
    lock_view (mlx5_net_dma_unmap x p s addr iova len).1.trace =
      lock_view s.trace ++
        [(.write_lock, true), (.lookup_list addr, true),
         (.list_remove (s.share_cache.mr_list.get i), true),
         (.mr_free (s.share_cache.mr_list.get i), true),
         (.rebuild_cache, true), (.dev_gen_inc, true), (.write_unlock, false)] := by
  rw [unmap_found x p d s addr iova len i hd hl]
  refine ⟨rfl, ?_⟩
  simp [lock_view, rte_rwlock_write_unlock, rte_rwlock_write_lock, dev_gen_inc,
    mlx5_mr_rebuild_cache, mlx5_mr_free, LIST_REMOVE]

/-- C9, witness: the unmap of `0x2000` on the example state removes `mr_b`. -/
theorem unmap_critical_section_witness :
    (mlx5_net_dma_unmap spec_common_mr 0 state_ab 0x2000 0 0x1000).2 = 0 ∧
    lock_view (mlx5_net_dma_unmap spec_common_mr 0 state_ab 0x2000 0 0x1000).1.trace =
      lock_view state_ab.trace ++
        [(.write_lock, true), (.lookup_list 0x2000, true), (.list_remove mr_b, true),
         (.mr_free mr_b, true), (.rebuild_cache, true), (.dev_gen_inc, true),
         (.write_unlock, false)] :=
  unmap_critical_section spec_common_mr 0 0 state_ab 0x2000 0 0x1000 ⟨1, by decide⟩
    (by decide) (by decide)

/-! ## C10: free events reach every device under the lock -/

/-- C10.  For every `RTE_MEM_EVENT_FREE` event `(addr, len)` and every device list,
`mlx5_mr_mem_event_cb` acquires the write lock, calls `mlx5_free_mr_by_addr` exactly
once for each device context of the list, in list order, with the event's `addr`
and `len` unchanged and the lock held, and releases the lock after the last device;
each device context then holds what `mlx5_free_mr_by_addr` made of its shared
cache. -/
theorem mem_event_free_reaches_every_device (x : mlx5_common_mr) (addr len : Nat)
    (sd : mlx5_shared_data) :
    (mlx5_mr_mem_event_cb x RTE_MEM_EVENT_FREE addr len sd).trace =
      sd.trace ++ [(.write_lock, { sd.mem_event_rwlock with writer := true })] ++
        sd.mem_event_cb_list.map (fun sh =>
          (mem_event_step.free_mr_by_addr sh.ibdev_name addr len,
            { sd.mem_event_rwlock with writer := true })) ++
        [(.write_unlock, { sd.mem_event_rwlock with writer := false })] ∧
    (mlx5_mr_mem_event_cb x RTE_MEM_EVENT_FREE addr len sd).mem_event_cb_list =
      sd.mem_event_cb_list.map (fun sh => { sh with
        share_cache := x.mlx5_free_mr_by_addr sh.share_cache sh.ibdev_name addr len }) ∧
    (mlx5_mr_mem_event_cb x RTE_MEM_EVENT_FREE addr len sd).mem_event_rwlock =
      { sd.mem_event_rwlock with writer := false } := by
  simp [mlx5_mr_mem_event_cb, foreach_free_mr_by_addr]

/-- An evaluation of `mlx5_mr_mem_event_cb`: a free event for `[0x1000, 0x2000)` on the
two example device contexts calls `mlx5_free_mr_by_addr` for `mlx5_0`, then for
`mlx5_1`, under the lock; with the routine as the specification describes it, the
first context keeps `mr_b` and the second keeps nothing. -/
theorem mem_event_free_example :
    (mlx5_mr_mem_event_cb spec_common_mr RTE_MEM_EVENT_FREE 0x1000 0x1000
        shared_data_example).trace.map Prod.fst =
      [.write_lock, .free_mr_by_addr "mlx5_0" 0x1000 0x1000,
       .free_mr_by_addr "mlx5_1" 0x1000 0x1000, .write_unlock] ∧
    (mlx5_mr_mem_event_cb spec_common_mr RTE_MEM_EVENT_FREE 0x1000 0x1000
        shared_data_example).mem_event_cb_list.map (fun sh => sh.share_cache.mr_list) =
      [[mr_b], []] := by
  decide

/-! ## C11: allocation events are ignored -/

/-- C11.  For every event type other than `RTE_MEM_EVENT_FREE` (so for
`RTE_MEM_EVENT_ALLOC` and for any unknown value) and every `addr` and `len`,
`mlx5_mr_mem_event_cb` executes no primitive (no lock is taken, no removal routine
is called) and leaves the lock and every device context (MR list, global cache,
`dev_gen`) as they were. -/
theorem mem_event_other_ignored (x : mlx5_common_mr) (event_type addr len : Nat)
    (sd : mlx5_shared_data) (h : event_type ≠ RTE_MEM_EVENT_FREE) :
    (mlx5_mr_mem_event_cb x event_type addr len sd).trace = sd.trace ∧
    (mlx5_mr_mem_event_cb x event_type addr len sd).mem_event_rwlock = sd.mem_event_rwlock ∧
    (mlx5_mr_mem_event_cb x event_type addr len sd).mem_event_cb_list =
      sd.mem_event_cb_list := by
  unfold mlx5_mr_mem_event_cb
  rw [if_neg h]
  exact ⟨rfl, rfl, rfl⟩

/-- C11, witness: an allocation event for `[0x1000, 0x2000)` on the two example
device contexts. -/
theorem mem_event_other_ignored_witness :
    (mlx5_mr_mem_event_cb spec_common_mr RTE_MEM_EVENT_ALLOC 0x1000 0x1000
      shared_data_example).trace = shared_data_example.trace ∧
    (mlx5_mr_mem_event_cb spec_common_mr RTE_MEM_EVENT_ALLOC 0x1000 0x1000
      shared_data_example).mem_event_rwlock = shared_data_example.mem_event_rwlock ∧
    (mlx5_mr_mem_event_cb spec_common_mr RTE_MEM_EVENT_ALLOC 0x1000 0x1000
      shared_data_example).mem_event_cb_list = shared_data_example.mem_event_cb_list :=
  mem_event_other_ignored spec_common_mr RTE_MEM_EVENT_ALLOC 0x1000 0x1000
    shared_data_example (by decide)
/-! ## C14: successful DMA map -/

/-- C14.  In every state in which a matching ethdev exists and `mlx5_create_mr_ext`
succeeds, `mlx5_net_dma_map` returns 0, the new region is the head of the MR list
with all earlier regions behind it in their order, and the region was passed to
`mlx5_mr_insert_cache` under the write lock; when no matching ethdev exists it
returns -1 with `rte_errno` `ENODEV`, executes no primitive and leaves the shared
cache as it was. -/
theorem dma_map_success (x : mlx5_common_mr) (p : Nat) (s : mr_state) (addr iova len : Nat) :
    (∀ (d : Nat) (mr : mlx5_mr), dev_to_eth_dev x p = some d →
      (mlx5_net_dma_map x p (some mr) s addr iova len).2 = 0 ∧
      (mlx5_net_dma_map x p (some mr) s addr iova len).1.share_cache.mr_list =
        mr :: s.share_cache.mr_list ∧
      (mlx5_net_dma_map x p (some mr) s addr iova len).1.share_cache.cache =
        x.mlx5_mr_insert_cache s.share_cache.cache mr ∧
      events (mlx5_net_dma_map x p (some mr) s addr iova len).1.trace =
        events s.trace ++ [.create_mr_ext addr len SOCKET_ID_ANY, .write_lock,
          .list_insert_head mr, .insert_cache mr, .write_unlock]) ∧
    (∀ reg : Option mlx5_mr, dev_to_eth_dev x p = none →
      (mlx5_net_dma_map x p reg s addr iova len).2 = -1 ∧
      (mlx5_net_dma_map x p reg s addr iova len).1.rte_errno = ENODEV ∧
      (mlx5_net_dma_map x p reg s addr iova len).1.share_cache = s.share_cache ∧
      (mlx5_net_dma_map x p reg s addr iova len).1.trace = s.trace) := by
  constructor
  · intro d mr hd
    rw [map_ok x p d mr s addr iova len hd]
    refine ⟨rfl, rfl, rfl, ?_⟩
    simp [events, rte_rwlock_write_unlock, rte_rwlock_write_lock, mlx5_mr_insert_cache,
      LIST_INSERT_HEAD]
  · intro reg hd
    rw [map_no_dev x p reg s addr iova len hd]
    exact ⟨rfl, rfl, rfl, rfl⟩

/-- C14, witness: the map of `[0x2000, 0x3000)` on the state that holds
`[0x1000, 0x2000)`, and the same call for a device with no ethdev (port 32). -/
theorem dma_map_success_witness :
    ((mlx5_net_dma_map spec_common_mr 0 (some mr_b) state_a 0x2000 0 0x1000).2 = 0 ∧
      (mlx5_net_dma_map spec_common_mr 0 (some mr_b) state_a 0x2000 0 0x1000).1.share_cache.mr_list
        = mr_b :: state_a.share_cache.mr_list ∧
      (mlx5_net_dma_map spec_common_mr 0 (some mr_b) state_a 0x2000 0 0x1000).1.share_cache.cache
        = spec_common_mr.mlx5_mr_insert_cache state_a.share_cache.cache mr_b ∧
      events (mlx5_net_dma_map spec_common_mr 0 (some mr_b) state_a 0x2000 0 0x1000).1.trace =
        events state_a.trace ++ [.create_mr_ext 0x2000 0x1000 SOCKET_ID_ANY, .write_lock,
          .list_insert_head mr_b, .insert_cache mr_b, .write_unlock]) ∧
    ((mlx5_net_dma_map spec_common_mr 32 (some mr_b) state_a 0x2000 0 0x1000).2 = -1 ∧
      (mlx5_net_dma_map spec_common_mr 32 (some mr_b) state_a 0x2000 0 0x1000).1.rte_errno
        = ENODEV ∧
      (mlx5_net_dma_map spec_common_mr 32 (some mr_b) state_a 0x2000 0 0x1000).1.share_cache
        = state_a.share_cache ∧
      (mlx5_net_dma_map spec_common_mr 32 (some mr_b) state_a 0x2000 0 0x1000).1.trace
        = state_a.trace) :=
  ⟨(dma_map_success spec_common_mr 0 state_a 0x2000 0 0x1000).1 0 mr_b (by decide),
   (dma_map_success spec_common_mr 32 state_a 0x2000 0 0x1000).2 (some mr_b) (by decide)⟩
/-! ## C18: staleness is detectable after unmap -/

/-- C18, counterexample.  Whatever the width `w` of the counter: a local cache is
stamped with the generation 0 of the empty state; `2 ^ w - 1` rounds of map and unmap
of `[0x1000, 0x2000)` and one more map follow; the next `mlx5_net_dma_unmap` is
successful and leaves `dev_gen` at 0, equal to the stamp observed before it.  With a
counter of 2 bits this is the eighth call. -/
theorem staleness_wrap_counterexample :
    (∀ w : Nat,
      data_example.mr_ctrl.cur_gen = state_empty.share_cache.dev_gen ∧
      (mlx5_net_dma_unmap (spec_common_mr_bits w) 0
        (run_calls (spec_common_mr_bits w) config_example state_empty
          (map_unmap_rounds (2 ^ w - 1) ++ [call_map_a])) 0x1000 0 0x1000).2 = 0 ∧
      (mlx5_net_dma_unmap (spec_common_mr_bits w) 0
        (run_calls (spec_common_mr_bits w) config_example state_empty
          (map_unmap_rounds (2 ^ w - 1) ++ [call_map_a])) 0x1000 0
            0x1000).1.share_cache.dev_gen = data_example.mr_ctrl.cur_gen) ∧
    (run_calls (spec_common_mr_bits 2) config_example state_empty
      (map_unmap_rounds 3 ++ [call_map_a])).share_cache.dev_gen = 3 ∧
    (mlx5_net_dma_unmap (spec_common_mr_bits 2) 0
      (run_calls (spec_common_mr_bits 2) config_example state_empty
        (map_unmap_rounds 3 ++ [call_map_a])) 0x1000 0 0x1000).2 = 0 ∧
    (mlx5_net_dma_unmap (spec_common_mr_bits 2) 0
      (run_calls (spec_common_mr_bits 2) config_example state_empty
        (map_unmap_rounds 3 ++ [call_map_a])) 0x1000 0 0x1000).1.share_cache.dev_gen =
      state_empty.share_cache.dev_gen := by
  refine ⟨?_, by decide, by decide, by decide⟩
  intro w
  have hP : 0 < 2 ^ w := Nat.two_pow_pos _
  have h1 := map_unmap_rounds_share_cache w (2 ^ w - 1) state_empty 0 hP rfl
  rw [Nat.zero_add, Nat.mod_eq_of_lt (by omega)] at h1
  rw [run_calls_append]
  generalize run_calls (spec_common_mr_bits w) config_example state_empty
    (map_unmap_rounds (2 ^ w - 1)) = s1 at h1 ⊢
  obtain ⟨sc, e, t⟩ := s1
  simp only at h1
  subst h1
  refine ⟨rfl, (map_unmap_round w (2 ^ w - 1) e t).1, ?_⟩
  have h2 := congrArg mlx5_mr_share_cache.dev_gen (map_unmap_round w (2 ^ w - 1) e t).2
  rw [Nat.sub_add_cancel hP, Nat.mod_self] at h2
  exact h2

/-- C18, amended.  For every successful `mlx5_net_dma_unmap` on a counter of positive
width that holds a value of that width, `dev_gen` after the call is the value before
the call plus one modulo the counter width, and is unequal to the value before; so a
local cache stamped with the generation read right before the unmap has a stamp that
differs from `dev_gen` after it.  More generally (`mlx5_mr_addr2mr_bh` leaving
`dev_gen` as it is) a generation observed at any earlier point differs from `dev_gen`
after the unmap as long as the calls run since that point, this unmap included, hold
fewer unmap calls than the counter has values. -/
theorem staleness_after_unmap (x : mlx5_common_mr) (p : Nat) (s : mr_state)
    (addr iova len : Nat)
    (hw : 0 < x.dev_gen_bits) (hg : s.share_cache.dev_gen < 2 ^ x.dev_gen_bits)
    (hret : (mlx5_net_dma_unmap x p s addr iova len).2 = 0) :
    (mlx5_net_dma_unmap x p s addr iova len).1.share_cache.dev_gen =
      (s.share_cache.dev_gen + 1) % 2 ^ x.dev_gen_bits ∧
    (mlx5_net_dma_unmap x p s addr iova len).1.share_cache.dev_gen ≠ s.share_cache.dev_gen ∧
    (∀ ctrl : mlx5_mr_ctrl, ctrl.cur_gen = s.share_cache.dev_gen →
      ctrl.cur_gen ≠ (mlx5_net_dma_unmap x p s addr iova len).1.share_cache.dev_gen) ∧
    (∀ (config : mlx5_dev_config) (s0 : mr_state) (cs : List mr_call) (ctrl : mlx5_mr_ctrl),
      addr2mr_keeps_gen x →
      s0.share_cache.dev_gen < 2 ^ x.dev_gen_bits →
      run_calls x config s0 cs = s →
      cs.countP mr_call.is_unmap + 1 < 2 ^ x.dev_gen_bits →
      ctrl.cur_gen = s0.share_cache.dev_gen →
      ctrl.cur_gen ≠ (mlx5_net_dma_unmap x p s addr iova len).1.share_cache.dev_gen) := by
  have hgen := unmap_dev_gen x p s addr iova len
  rw [if_pos hret] at hgen
  have h2 : 2 ≤ 2 ^ x.dev_gen_bits := by
    calc 2 = 2 ^ 1 := rfl
      _ ≤ 2 ^ x.dev_gen_bits := Nat.pow_le_pow_right (by decide) hw
  have hne : (s.share_cache.dev_gen + 1) % 2 ^ x.dev_gen_bits ≠ s.share_cache.dev_gen :=
    mod_add_ne _ _ 1 hg (by decide) (by omega)
  refine ⟨hgen, ?_, ?_, ?_⟩
  · rw [hgen]; exact hne
  · intro ctrl hc
    rw [hgen, hc]
    exact fun h => hne h.symm
  · intro config s0 cs ctrl hb hg0 hrun hcount hc
    obtain ⟨k, hk, hfin⟩ := run_calls_dev_gen_mod x hb config s0 cs hg0
    rw [hrun] at hfin
    rw [hgen, hfin, Nat.mod_add_mod, hc, Nat.add_assoc]
    exact fun h => mod_add_ne _ _ (k + 1) hg0 (by omega) (by omega) h.symm

/-- C18, witness of the amended claim: the unmap of `0x1000` that ends the example
sequence, run from the empty state with a 32-bit counter; the stamp 0 observed at
the start differs from `dev_gen` after the unmap, which is 1. -/
theorem staleness_after_unmap_witness :
    (mlx5_net_dma_unmap spec_common_mr 0
      (run_calls spec_common_mr config_example state_empty calls_before_unmap) 0x1000 0
        0x1000).1.share_cache.dev_gen = 1 ∧
    (∀ ctrl : mlx5_mr_ctrl, ctrl.cur_gen = state_empty.share_cache.dev_gen →
      ctrl.cur_gen ≠ (mlx5_net_dma_unmap spec_common_mr 0
        (run_calls spec_common_mr config_example state_empty calls_before_unmap) 0x1000 0
          0x1000).1.share_cache.dev_gen) :=
  ⟨by decide,
   fun ctrl hc =>
    (staleness_after_unmap spec_common_mr 0
      (run_calls spec_common_mr config_example state_empty calls_before_unmap) 0x1000 0 0x1000
      (by decide) (by decide) (by decide)).2.2.2 config_example state_empty calls_before_unmap
      ctrl spec_addr2mr_keeps_gen (by decide) rfl (by decide) hc⟩

/-- An evaluation of the wrap of the 32-bit counter: on the state that holds `mr_a`
with `dev_gen` at `2 ^ 32 - 1`, the unmap leaves `dev_gen` at 0, which differs from
the value before it. -/
theorem staleness_wrap_example :
    (mlx5_net_dma_unmap spec_common_mr 0 (state_gen_max 32) 0x1000 0
      0x1000).1.share_cache.dev_gen = 0 ∧
    (state_gen_max 32).share_cache.dev_gen = 4294967295 := by
  decide

/-! ## C19: already-registered chunks are skipped -/

/-- C19.  For every memory chunk whose start address hits in the global cache,
`mlx5_mr_update_ext_mp_cb` returns after the lookup under the read lock: it does not
call `mlx5_create_mr_ext`, does not take the write lock, and leaves the shared cache
(MR list, global cache), the local cache and `data->ret` as they were.  Hence two
runs of the callback in sequence on the same chunk insert at most one region, given
that a lookup of the chunk's address hits after its insertion. -/
theorem registered_chunk_skipped (x : mlx5_common_mr) (config : mlx5_dev_config)
    (mp : rte_mempool) (s : mr_state) (data : mr_update_mp_data)
    (memhdr : rte_mempool_memhdr) :
    (∀ (reg : Option mlx5_mr) (mem_idx : Nat),
      x.mlx5_mr_lookup_cache s.share_cache.cache memhdr.addr ≠ UINT32_MAX →
      events (mlx5_mr_update_ext_mp_cb x config reg mp s data memhdr mem_idx).1.trace =
        events s.trace ++ [.read_lock, .lookup_cache memhdr.addr, .read_unlock] ∧
      (mlx5_mr_update_ext_mp_cb x config reg mp s data memhdr mem_idx).1.share_cache =
        s.share_cache ∧
      (mlx5_mr_update_ext_mp_cb x config reg mp s data memhdr mem_idx).2 = data) ∧
    (∀ (reg1 reg2 : Option mlx5_mr) (i1 i2 : Nat),
      (reg1.isSome = true →
        x.mlx5_mr_lookup_cache s.share_cache.cache memhdr.addr = UINT32_MAX →
        x.mlx5_mr_lookup_cache
          (mlx5_mr_update_ext_mp_cb x config reg1 mp s data memhdr i1).1.share_cache.cache
          memhdr.addr ≠ UINT32_MAX) →
      (events (mlx5_mr_update_ext_mp_cb x config reg2 mp
          (mlx5_mr_update_ext_mp_cb x config reg1 mp s data memhdr i1).1
          (mlx5_mr_update_ext_mp_cb x config reg1 mp s data memhdr i1).2
          memhdr i2).1.trace).countP mr_event.is_list_insert_head ≤
        (events s.trace).countP mr_event.is_list_insert_head + 1) := by
  constructor
  · intro reg mem_idx hl
    refine ⟨cb_hit_events x config reg mp s data memhdr mem_idx hl, ?_, ?_⟩
    · rw [cb_hit x config reg mp s data memhdr mem_idx hl]; rfl
    · rw [cb_hit x config reg mp s data memhdr mem_idx hl]
  · intro reg1 reg2 i1 i2 hhit
    rw [cb_insert_count, cb_insert_count]
    by_cases hl : x.mlx5_mr_lookup_cache s.share_cache.cache memhdr.addr = UINT32_MAX
    · cases reg1 with
      | none =>
        have h1 : ¬ (x.mlx5_mr_lookup_cache s.share_cache.cache memhdr.addr = UINT32_MAX ∧
            (none : Option mlx5_mr).isSome = true) := by simp
        rw [if_neg h1]
        split <;> omega
      | some mr =>
        have h2 := hhit rfl hl
        have h3 : ¬ (x.mlx5_mr_lookup_cache (mlx5_mr_update_ext_mp_cb x config (some mr) mp s
            data memhdr i1).1.share_cache.cache memhdr.addr = UINT32_MAX ∧
            reg2.isSome = true) := fun h => h2 h.1
        rw [if_neg h3]
        split <;> omega
    · have h1 : ¬ (x.mlx5_mr_lookup_cache s.share_cache.cache memhdr.addr = UINT32_MAX ∧
          reg1.isSome = true) := fun h => hl h.1
      rw [if_neg h1]
      have hsc : (mlx5_mr_update_ext_mp_cb x config reg1 mp s data memhdr i1).1.share_cache =
          s.share_cache := by
        rw [cb_hit x config reg1 mp s data memhdr i1 hl]; rfl
      have h3 : ¬ (x.mlx5_mr_lookup_cache (mlx5_mr_update_ext_mp_cb x config reg1 mp s
          data memhdr i1).1.share_cache.cache memhdr.addr = UINT32_MAX ∧
          reg2.isSome = true) := by
        rw [hsc]; exact fun h => hl h.1
      rw [if_neg h3]
      omega

/-- C19, witness: the callback for the chunk `[0x1000, 0x2000)` on the state that
already holds it, and two runs for the chunk `[0x2000, 0x3000)`, both offered a
successful registration. -/
theorem registered_chunk_skipped_witness :
    (events (mlx5_mr_update_ext_mp_cb spec_common_mr config_example (some mr_a2) mp_example
        state_a data_example memhdr_a 0).1.trace =
        events state_a.trace ++ [.read_lock, .lookup_cache memhdr_a.addr, .read_unlock] ∧
      (mlx5_mr_update_ext_mp_cb spec_common_mr config_example (some mr_a2) mp_example
        state_a data_example memhdr_a 0).1.share_cache = state_a.share_cache ∧
      (mlx5_mr_update_ext_mp_cb spec_common_mr config_example (some mr_a2) mp_example
        state_a data_example memhdr_a 0).2 = data_example) ∧
    (events (mlx5_mr_update_ext_mp_cb spec_common_mr config_example (some mr_b) mp_example
        (mlx5_mr_update_ext_mp_cb spec_common_mr config_example (some mr_b) mp_example
          state_a data_example memhdr_b 0).1
        (mlx5_mr_update_ext_mp_cb spec_common_mr config_example (some mr_b) mp_example
          state_a data_example memhdr_b 0).2
        memhdr_b 0).1.trace).countP mr_event.is_list_insert_head ≤
      (events state_a.trace).countP mr_event.is_list_insert_head + 1 :=
  ⟨(registered_chunk_skipped spec_common_mr config_example mp_example state_a data_example
      memhdr_a).1 (some mr_a2) 0 (by decide),
   (registered_chunk_skipped spec_common_mr config_example mp_example state_a data_example
      memhdr_b).2 (some mr_b) (some mr_b) 0 0 (fun _ _ => by decide)⟩

/-! ## C12: the translation result of `mlx5_tx_mb2mr_bh` -/

/-- C12.  For every queue and mbuf the result of `mlx5_tx_mb2mr_bh` is (1) the key
returned by `mlx5_mr_mempool2mr_bh` when mempool registration is enabled, a mempool
is recovered for the mbuf and that key is not `UINT32_MAX`; otherwise (2) the key
returned by `mlx5_tx_addr2mr_bh`, except that (3) when that key is `UINT32_MAX` and
`rte_errno` is `ENXIO` the result is that of `mlx5_tx_update_ext_mp`.  In particular
`UINT32_MAX` is returned only when no path that was taken found a match. -/
theorem tx_mb2mr_bh_result (x : mlx5_common_mr) (config : mlx5_dev_config)
    (mempool2mr : mlx5_mr_share_cache → mlx5_mr_ctrl → rte_mempool → Nat → addr2mr_result)
    (proc : Int) (regs : Nat → Option mlx5_mr) (st : tx_state) (mb : rte_mbuf) :
    (∀ mp, config.mr_mempool_reg_en = true → mb2mr_mp mb = some mp →
      (mb2mr_mempool mempool2mr st mp mb.buf_addr).2 ≠ UINT32_MAX →
      mlx5_tx_mb2mr_bh x config mempool2mr proc regs st mb =
        mb2mr_mempool mempool2mr st mp mb.buf_addr) ∧
    (¬ mb2mr_mempool_hit config mempool2mr st mb →
      ((mlx5_tx_addr2mr_bh x config (mb2mr_generic_start config mempool2mr st mb)
            mb.buf_addr).2 = UINT32_MAX ∧
          (mlx5_tx_addr2mr_bh x config (mb2mr_generic_start config mempool2mr st mb)
            mb.buf_addr).1.sh.rte_errno = ENXIO →
        mlx5_tx_mb2mr_bh x config mempool2mr proc regs st mb =
          mlx5_tx_update_ext_mp x config proc regs
            (mlx5_tx_addr2mr_bh x config (mb2mr_generic_start config mempool2mr st mb)
              mb.buf_addr).1 mb.buf_addr mb.mb2mp) ∧
      (¬ ((mlx5_tx_addr2mr_bh x config (mb2mr_generic_start config mempool2mr st mb)
            mb.buf_addr).2 = UINT32_MAX ∧
          (mlx5_tx_addr2mr_bh x config (mb2mr_generic_start config mempool2mr st mb)
            mb.buf_addr).1.sh.rte_errno = ENXIO) →
        mlx5_tx_mb2mr_bh x config mempool2mr proc regs st mb =
          mlx5_tx_addr2mr_bh x config (mb2mr_generic_start config mempool2mr st mb)
            mb.buf_addr)) ∧
    ((mlx5_tx_mb2mr_bh x config mempool2mr proc regs st mb).2 = UINT32_MAX →
      ¬ mb2mr_mempool_hit config mempool2mr st mb ∧
      (mlx5_tx_addr2mr_bh x config (mb2mr_generic_start config mempool2mr st mb)
        mb.buf_addr).2 = UINT32_MAX ∧
      ((mlx5_tx_addr2mr_bh x config (mb2mr_generic_start config mempool2mr st mb)
          mb.buf_addr).1.sh.rte_errno = ENXIO →
        (mlx5_tx_update_ext_mp x config proc regs
          (mlx5_tx_addr2mr_bh x config (mb2mr_generic_start config mempool2mr st mb)
            mb.buf_addr).1 mb.buf_addr mb.mb2mp).2 = UINT32_MAX)) := by
  have hgen : ¬ mb2mr_mempool_hit config mempool2mr st mb →
      mlx5_tx_mb2mr_bh x config mempool2mr proc regs st mb =
        mb2mr_generic x config proc regs (mb2mr_generic_start config mempool2mr st mb) mb := by
    intro hno
    unfold mlx5_tx_mb2mr_bh mb2mr_generic_start
    by_cases hen : config.mr_mempool_reg_en = true
    · simp only [hen, if_true]
      cases hmp : mb2mr_mp mb with
      | none => rfl
      | some mp =>
        simp only
        have hmax : (mb2mr_mempool mempool2mr st mp mb.buf_addr).2 = UINT32_MAX := by
          by_contra hne
          exact hno ⟨hen, mp, hmp, hne⟩
        rw [if_neg (by simp [hmax])]
    · simp only [hen]
      rfl
  have hhit : ∀ mp, config.mr_mempool_reg_en = true → mb2mr_mp mb = some mp →
      (mb2mr_mempool mempool2mr st mp mb.buf_addr).2 ≠ UINT32_MAX →
      mlx5_tx_mb2mr_bh x config mempool2mr proc regs st mb =
        mb2mr_mempool mempool2mr st mp mb.buf_addr := by
    intro mp hen hmp hne
    unfold mlx5_tx_mb2mr_bh
    simp only [hen, if_true, hmp]
    rw [if_pos hne]
  refine ⟨hhit, ?_, ?_⟩
  · intro hno
    rw [hgen hno]
    unfold mb2mr_generic
    constructor
    · intro h; rw [if_pos h]
    · intro h; rw [if_neg h]
  · intro hmax
    have hno : ¬ mb2mr_mempool_hit config mempool2mr st mb := by
      rintro ⟨hen, mp, hmp, hne⟩
      rw [hhit mp hen hmp hne] at hmax
      exact hne hmax
    rw [hgen hno] at hmax
    unfold mb2mr_generic at hmax
    refine ⟨hno, ?_, ?_⟩
    · by_contra hne
      rw [if_neg (fun h => hne h.1)] at hmax
      exact hne hmax
    · intro herr
      by_cases hk : (mlx5_tx_addr2mr_bh x config (mb2mr_generic_start config mempool2mr st mb)
          mb.buf_addr).2 = UINT32_MAX
      · rw [if_pos ⟨hk, herr⟩] at hmax
        exact hmax
      · rw [if_neg (fun h => hk h.1)] at hmax
        exact absurd hmax hk

/-- C12, witness: with mempool registration enabled, the mbuf at `0x1800` of the
device that holds `[0x1000, 0x2000)` with key 7 translates to 7 through the mempool
lookup; the mbuf at `0x5000` finds no match on any path and, in a primary process
whose registration fails, translates to `UINT32_MAX`. -/
theorem tx_mb2mr_bh_result_witness :
    (mlx5_tx_mb2mr_bh spec_common_mr config_mempool mempool2mr_example RTE_PROC_PRIMARY
      regs_none tx_state_a mbuf_a).2 = 7 ∧
    mlx5_tx_mb2mr_bh spec_common_mr config_mempool mempool2mr_example RTE_PROC_PRIMARY
      regs_none tx_state_a mbuf_a =
        mb2mr_mempool mempool2mr_example tx_state_a mp_example mbuf_a.buf_addr ∧
    (mlx5_tx_mb2mr_bh spec_common_mr config_mempool mempool2mr_example RTE_PROC_PRIMARY
      regs_none tx_state_a mbuf_unreg).2 = UINT32_MAX ∧
    (¬ mb2mr_mempool_hit config_mempool mempool2mr_example tx_state_a mbuf_unreg ∧
      (mlx5_tx_addr2mr_bh spec_common_mr config_mempool
        (mb2mr_generic_start config_mempool mempool2mr_example tx_state_a mbuf_unreg)
        mbuf_unreg.buf_addr).2 = UINT32_MAX ∧
      ((mlx5_tx_addr2mr_bh spec_common_mr config_mempool
          (mb2mr_generic_start config_mempool mempool2mr_example tx_state_a mbuf_unreg)
          mbuf_unreg.buf_addr).1.sh.rte_errno = ENXIO →
        (mlx5_tx_update_ext_mp spec_common_mr config_mempool RTE_PROC_PRIMARY regs_none
          (mlx5_tx_addr2mr_bh spec_common_mr config_mempool
            (mb2mr_generic_start config_mempool mempool2mr_example tx_state_a mbuf_unreg)
            mbuf_unreg.buf_addr).1 mbuf_unreg.buf_addr mbuf_unreg.mb2mp).2 = UINT32_MAX)) :=
  ⟨by decide,
   (tx_mb2mr_bh_result spec_common_mr config_mempool mempool2mr_example RTE_PROC_PRIMARY
      regs_none tx_state_a mbuf_a).1 mp_example (by decide) (by decide) (by decide),
   by decide,
   (tx_mb2mr_bh_result spec_common_mr config_mempool mempool2mr_example RTE_PROC_PRIMARY
      regs_none tx_state_a mbuf_unreg).2.2 (by decide)⟩

/-! ## C13: two callers registering the same chunk -/

/-- C13, counterexample.  Two callers run `mlx5_mr_update_ext_mp_cb` for the
never-registered chunk `[0x2000, 0x3000)` on the empty state, the second making its
lookup before the first inserts.  Both lookups miss; two hardware registration calls
are made, two regions for the chunk end up in the MR list, and the local caches of
the two callers hold different keys (9 and 10). -/
theorem concurrent_registration_counterexample :
    events (cb_two_callers_interleaved spec_common_mr config_example (some mr_b) (some mr_b2)
        mp_example state_empty data_example data_example memhdr_b).1.trace =
      [.read_lock, .lookup_cache 0x2000, .read_unlock,
       .read_lock, .lookup_cache 0x2000, .read_unlock,
       .create_mr_ext 0x2000 0x1000 0, .write_lock, .list_insert_head mr_b,
       .insert_cache mr_b, .write_unlock, .addr2mr_bh 0x2000,
       .create_mr_ext 0x2000 0x1000 0, .write_lock, .list_insert_head mr_b2,
       .insert_cache mr_b2, .write_unlock, .addr2mr_bh 0x2000] ∧
    (cb_two_callers_interleaved spec_common_mr config_example (some mr_b) (some mr_b2)
        mp_example state_empty data_example data_example memhdr_b).1.share_cache.mr_list =
      [mr_b2, mr_b] ∧
    (cb_two_callers_interleaved spec_common_mr config_example (some mr_b) (some mr_b2)
        mp_example state_empty data_example data_example memhdr_b).2.1.mr_ctrl.cache =
      [mr_cache_entry.of_mr mr_b] ∧
    (cb_two_callers_interleaved spec_common_mr config_example (some mr_b) (some mr_b2)
        mp_example state_empty data_example data_example memhdr_b).2.2.mr_ctrl.cache =
      [mr_cache_entry.of_mr mr_b2] := by
  decide

/-- C13, amended.  When two callers run `mlx5_mr_update_ext_mp_cb` for the same
never-registered chunk one after the other, the first registration succeeding and a
lookup of the chunk's address hitting after its insertion, exactly one hardware
registration call and one insertion into the MR list are made, and the second
caller leaves the shared cache and its own data as they were.  When the second
caller makes its lookup before the first inserts, both lookups miss and each caller
whose registration succeeds makes its own hardware registration call and inserts its
own region: two calls and two insertions. -/
theorem two_callers_registration (x : mlx5_common_mr) (config : mlx5_dev_config)
    (mrA mrB : mlx5_mr) (mp : rte_mempool) (s : mr_state)
    (dataA dataB : mr_update_mp_data) (memhdr : rte_mempool_memhdr)
    (hmiss : x.mlx5_mr_lookup_cache s.share_cache.cache memhdr.addr = UINT32_MAX) :
    (x.mlx5_mr_lookup_cache
        (mlx5_mr_update_ext_mp_cb x config (some mrA) mp s dataA memhdr 0).1.share_cache.cache
        memhdr.addr ≠ UINT32_MAX →
      (events (cb_two_callers_sequential x config (some mrA) (some mrB) mp s dataA dataB
          memhdr).1.trace).countP mr_event.is_create_mr_ext =
        (events s.trace).countP mr_event.is_create_mr_ext + 1 ∧
      (events (cb_two_callers_sequential x config (some mrA) (some mrB) mp s dataA dataB
          memhdr).1.trace).countP mr_event.is_list_insert_head =
        (events s.trace).countP mr_event.is_list_insert_head + 1 ∧
      (cb_two_callers_sequential x config (some mrA) (some mrB) mp s dataA dataB
          memhdr).1.share_cache =
        (mlx5_mr_update_ext_mp_cb x config (some mrA) mp s dataA memhdr 0).1.share_cache ∧
      (cb_two_callers_sequential x config (some mrA) (some mrB) mp s dataA dataB
          memhdr).2.2 = dataB) ∧
    ((events (cb_two_callers_interleaved x config (some mrA) (some mrB) mp s dataA dataB
        memhdr).1.trace).countP mr_event.is_create_mr_ext =
      (events s.trace).countP mr_event.is_create_mr_ext + 2 ∧
     (events (cb_two_callers_interleaved x config (some mrA) (some mrB) mp s dataA dataB
        memhdr).1.trace).countP mr_event.is_list_insert_head =
      (events s.trace).countP mr_event.is_list_insert_head + 2) := by
  constructor
  · intro hhit
    unfold cb_two_callers_sequential
    simp only
    refine ⟨?_, ?_, ?_, ?_⟩
    · rw [cb_hit_events x config (some mrB) mp _ dataB memhdr 0 hhit,
        cb_ok_events x config mrA mp s dataA memhdr 0 hmiss]
      simp [List.countP_append, List.countP_cons, mr_event.is_create_mr_ext]
    · rw [cb_hit_events x config (some mrB) mp _ dataB memhdr 0 hhit,
        cb_ok_events x config mrA mp s dataA memhdr 0 hmiss]
      simp [List.countP_append, List.countP_cons, mr_event.is_list_insert_head]
    · rw [cb_hit x config (some mrB) mp _ dataB memhdr 0 hhit]
      rfl
    · rw [cb_hit x config (some mrB) mp _ dataB memhdr 0 hhit]
  · unfold cb_two_callers_interleaved
    simp only
    have hb : (cb_lookup x (cb_lookup x s memhdr).1 memhdr).2 = UINT32_MAX := by
      rw [cb_lookup_lkey, cb_lookup_share_cache]; exact hmiss
    have ha : (cb_lookup x s memhdr).2 = UINT32_MAX := by
      rw [cb_lookup_lkey]; exact hmiss
    rw [ha, hb, cb_rest_events, cb_rest_events, cb_lookup_events, cb_lookup_events]
    constructor
    · simp [List.countP_append, List.countP_cons, mr_event.is_create_mr_ext]
    · simp [List.countP_append, List.countP_cons, mr_event.is_list_insert_head]

/-- C13, witness of the amended claim: the chunk `[0x2000, 0x3000)` on the state
that holds `[0x1000, 0x2000)`; one after the other the two callers make one
registration call and one insertion, interleaved they make two of each. -/
theorem two_callers_registration_witness :
    ((events (cb_two_callers_sequential spec_common_mr config_example (some mr_b) (some mr_b2)
          mp_example state_a data_example data_example memhdr_b).1.trace).countP
          mr_event.is_create_mr_ext =
        (events state_a.trace).countP mr_event.is_create_mr_ext + 1 ∧
      (events (cb_two_callers_sequential spec_common_mr config_example (some mr_b) (some mr_b2)
          mp_example state_a data_example data_example memhdr_b).1.trace).countP
          mr_event.is_list_insert_head =
        (events state_a.trace).countP mr_event.is_list_insert_head + 1 ∧
      (cb_two_callers_sequential spec_common_mr config_example (some mr_b) (some mr_b2)
          mp_example state_a data_example data_example memhdr_b).1.share_cache =
        (mlx5_mr_update_ext_mp_cb spec_common_mr config_example (some mr_b) mp_example state_a
          data_example memhdr_b 0).1.share_cache ∧
      (cb_two_callers_sequential spec_common_mr config_example (some mr_b) (some mr_b2)
          mp_example state_a data_example data_example memhdr_b).2.2 = data_example) ∧
    ((events (cb_two_callers_interleaved spec_common_mr config_example (some mr_b) (some mr_b2)
        mp_example state_a data_example data_example memhdr_b).1.trace).countP
        mr_event.is_create_mr_ext =
      (events state_a.trace).countP mr_event.is_create_mr_ext + 2 ∧
     (events (cb_two_callers_interleaved spec_common_mr config_example (some mr_b) (some mr_b2)
        mp_example state_a data_example data_example memhdr_b).1.trace).countP
        mr_event.is_list_insert_head =
      (events state_a.trace).countP mr_event.is_list_insert_head + 2) :=
  ⟨(two_callers_registration spec_common_mr config_example mr_b mr_b2 mp_example state_a
      data_example data_example memhdr_b (by decide)).1 (by decide),
   (two_callers_registration spec_common_mr config_example mr_b mr_b2 mp_example state_a
      data_example data_example memhdr_b (by decide)).2⟩

/-! ## C21: the return value of `mlx5_mr_update_ext_mp` -/

/-- C22.  For every successful `mlx5_net_dma_unmap`, `mlx5_mr_lookup_list` returned a
region of the MR list for `addr`, and the MR list afterwards is the list before with
exactly that region taken out: the regions in front of it and the regions behind it
stay, unchanged and in the same order, and the only call of `mlx5_mr_free` the
function makes is for the removed region. -/
theorem unmap_removes_one_region (x : mlx5_common_mr) (p : Nat) (s : mr_state)
    (addr iova len : Nat)
    (hret : (mlx5_net_dma_unmap x p s addr iova len).2 = 0) :
    ∃ i : Fin s.share_cache.mr_list.length,
      x.mlx5_mr_lookup_list s.share_cache.mr_list addr = some i ∧
      s.share_cache.mr_list =
        s.share_cache.mr_list.take i.val ++
          s.share_cache.mr_list.get i :: s.share_cache.mr_list.drop (i.val + 1) ∧
      (mlx5_net_dma_unmap x p s addr iova len).1.share_cache.mr_list =
        s.share_cache.mr_list.take i.val ++ s.share_cache.mr_list.drop (i.val + 1) ∧
      (mlx5_net_dma_unmap x p s addr iova len).1.share_cache.mr_list.length + 1 =
        s.share_cache.mr_list.length ∧
      (events (mlx5_net_dma_unmap x p s addr iova len).1.trace).filter mr_event.is_mr_free =
        (events s.trace).filter mr_event.is_mr_free ++
          [.mr_free (s.share_cache.mr_list.get i)] := by
  obtain ⟨d, i, hd, hl⟩ := unmap_ret_zero x p s addr iova len hret
  have hlist : (mlx5_net_dma_unmap x p s addr iova len).1.share_cache.mr_list =
      s.share_cache.mr_list.eraseIdx i.val := by
    rw [unmap_found x p d s addr iova len i hd hl]; rfl
  have hsplit : s.share_cache.mr_list =
      s.share_cache.mr_list.take i.val ++
        s.share_cache.mr_list.get i :: s.share_cache.mr_list.drop (i.val + 1) := by
    conv_lhs => rw [← List.take_append_drop i.val s.share_cache.mr_list]
    rw [List.drop_eq_getElem_cons i.isLt]
    rfl
  refine ⟨i, hl, hsplit, ?_, ?_, ?_⟩
  · rw [hlist, List.eraseIdx_eq_take_drop_succ]
  · rw [hlist, List.length_eraseIdx_of_lt i.isLt]
    have := i.isLt
    omega
  · rw [unmap_found_events x p d s addr iova len i hd hl, List.filter_append]
    simp [mr_event.is_mr_free]

/-- C22, witness: the unmap of `0x2000` on the state that holds `mr_a` and `mr_b`
removes and deregisters `mr_b` and leaves `mr_a`. -/
theorem unmap_removes_one_region_witness :
    (mlx5_net_dma_unmap spec_common_mr 0 state_ab 0x2000 0 0x1000).1.share_cache.mr_list =
      [mr_a] ∧
    (events (mlx5_net_dma_unmap spec_common_mr 0 state_ab 0x2000 0 0x1000).1.trace).filter
      mr_event.is_mr_free = [.mr_free mr_b] ∧
    ∃ i : Fin state_ab.share_cache.mr_list.length,
      spec_common_mr.mlx5_mr_lookup_list state_ab.share_cache.mr_list 0x2000 = some i ∧
      state_ab.share_cache.mr_list =
        state_ab.share_cache.mr_list.take i.val ++
          state_ab.share_cache.mr_list.get i :: state_ab.share_cache.mr_list.drop (i.val + 1) ∧
      (mlx5_net_dma_unmap spec_common_mr 0 state_ab 0x2000 0 0x1000).1.share_cache.mr_list =
        state_ab.share_cache.mr_list.take i.val ++
          state_ab.share_cache.mr_list.drop (i.val + 1) ∧
      (mlx5_net_dma_unmap spec_common_mr 0 state_ab 0x2000 0 0x1000).1.share_cache.mr_list.length
        + 1 = state_ab.share_cache.mr_list.length ∧
      (events (mlx5_net_dma_unmap spec_common_mr 0 state_ab 0x2000 0 0x1000).1.trace).filter
          mr_event.is_mr_free =
        (events state_ab.trace).filter mr_event.is_mr_free ++
          [.mr_free (state_ab.share_cache.mr_list.get i)] :=
  ⟨by decide, by decide,
   unmap_removes_one_region spec_common_mr 0 state_ab 0x2000 0 0x1000 (by decide)⟩

/-! ## C24: secondary processes never register -/

/-- C24.  For every queue, address and mempool, when the process type is not
`RTE_PROC_PRIMARY`, `mlx5_tx_update_ext_mp` returns `UINT32_MAX` and leaves the whole
state as it was: no primitive is executed (the mempool is not iterated, the hardware
registration is not called), and the MR list, the global cache and the local cache
of the queue are unchanged. -/
theorem secondary_never_registers (x : mlx5_common_mr) (config : mlx5_dev_config)
    (proc : Int) (regs : Nat → Option mlx5_mr) (st : tx_state) (addr : Nat)
    (mp : rte_mempool) (hproc : proc ≠ RTE_PROC_PRIMARY) :
    (mlx5_tx_update_ext_mp x config proc regs st addr mp).2 = UINT32_MAX ∧
    (mlx5_tx_update_ext_mp x config proc regs st addr mp).1.sh.trace = st.sh.trace ∧
    (mlx5_tx_update_ext_mp x config proc regs st addr mp).1.sh.share_cache =
      st.sh.share_cache ∧
    (mlx5_tx_update_ext_mp x config proc regs st addr mp).1.mr_ctrl = st.mr_ctrl ∧
    (mlx5_tx_update_ext_mp x config proc regs st addr mp).1 = st := by
  unfold mlx5_tx_update_ext_mp
  rw [if_pos hproc]
  exact ⟨rfl, rfl, rfl, rfl, rfl⟩

/-- C24, witness: a secondary process asking for `0x2000`, an address of the
unregistered chunk of `mp_chunk_b`, with a hardware that would register it. -/
theorem secondary_never_registers_witness :
    (mlx5_tx_update_ext_mp spec_common_mr config_example RTE_PROC_SECONDARY regs_b
      tx_state_a 0x2000 mp_chunk_b).2 = UINT32_MAX ∧
    (mlx5_tx_update_ext_mp spec_common_mr config_example RTE_PROC_SECONDARY regs_b
      tx_state_a 0x2000 mp_chunk_b).1.sh.trace = tx_state_a.sh.trace ∧
    (mlx5_tx_update_ext_mp spec_common_mr config_example RTE_PROC_SECONDARY regs_b
      tx_state_a 0x2000 mp_chunk_b).1.sh.share_cache = tx_state_a.sh.share_cache ∧
    (mlx5_tx_update_ext_mp spec_common_mr config_example RTE_PROC_SECONDARY regs_b
      tx_state_a 0x2000 mp_chunk_b).1.mr_ctrl = tx_state_a.mr_ctrl ∧
    (mlx5_tx_update_ext_mp spec_common_mr config_example RTE_PROC_SECONDARY regs_b
      tx_state_a 0x2000 mp_chunk_b).1 = tx_state_a :=
  secondary_never_registers spec_common_mr config_example RTE_PROC_SECONDARY regs_b
    tx_state_a 0x2000 mp_chunk_b (by decide)

/-- An evaluation of `mlx5_tx_update_ext_mp` in the primary process, for contrast:
the chunk is registered and the address translates to the key 9. -/
theorem primary_registers_example :
    (mlx5_tx_update_ext_mp spec_common_mr config_example RTE_PROC_PRIMARY regs_b
      tx_state_a 0x2000 mp_chunk_b).2 = 9 ∧
    (mlx5_tx_update_ext_mp spec_common_mr config_example RTE_PROC_PRIMARY regs_b
      tx_state_a 0x2000 mp_chunk_b).1.sh.share_cache.mr_list = [mr_b, mr_a] := by
  decide

/-! ## C23: lock balance -/

/-- C23.  On every path through `mlx5_net_dma_map`, `mlx5_net_dma_unmap`,
`mlx5_mr_update_ext_mp_cb` and `mlx5_mr_mem_event_cb`, early returns and error paths
included, the primitives the function executes are balanced in their lock events:
a read or write lock is acquired only when the function holds none, each lock it
acquires is released once, by the matching release, before it returns, and no lock
is released that was not acquired. -/
theorem lock_balance (x : mlx5_common_mr) (config : mlx5_dev_config) :
    (∀ (p : Nat) (reg : Option mlx5_mr) (s : mr_state) (addr iova len : Nat),
      ∃ evs, events (mlx5_net_dma_map x p reg s addr iova len).1.trace =
          events s.trace ++ evs ∧ lock_balanced evs = true) ∧
    (∀ (p : Nat) (s : mr_state) (addr iova len : Nat),
      ∃ evs, events (mlx5_net_dma_unmap x p s addr iova len).1.trace =
          events s.trace ++ evs ∧ lock_balanced evs = true) ∧
    (∀ (reg : Option mlx5_mr) (mp : rte_mempool) (s : mr_state) (data : mr_update_mp_data)
      (memhdr : rte_mempool_memhdr) (mem_idx : Nat),
      ∃ evs, events (mlx5_mr_update_ext_mp_cb x config reg mp s data memhdr mem_idx).1.trace =
          events s.trace ++ evs ∧ lock_balanced evs = true) ∧
    (∀ (event_type addr len : Nat) (sd : mlx5_shared_data),
      ∃ evs, (mlx5_mr_mem_event_cb x event_type addr len sd).trace.map Prod.fst =
          sd.trace.map Prod.fst ++ evs ∧ mem_lock_balanced_from false evs = true) := by
  refine ⟨?_, ?_, ?_, ?_⟩
  · intro p reg s addr iova len
    cases hd : dev_to_eth_dev x p with
    | none =>
      refine ⟨[], ?_, rfl⟩
      rw [map_no_dev x p reg s addr iova len hd, List.append_nil]
    | some d =>
      cases reg with
      | none => exact ⟨_, map_reg_fail_events x p d s addr iova len hd, rfl⟩
      | some mr => exact ⟨_, map_ok_events x p d mr s addr iova len hd, rfl⟩
  · intro p s addr iova len
    cases hd : dev_to_eth_dev x p with
    | none =>
      refine ⟨[], ?_, rfl⟩
      rw [unmap_no_dev x p s addr iova len hd, List.append_nil]
    | some d =>
      cases hl : x.mlx5_mr_lookup_list s.share_cache.mr_list addr with
      | none => exact ⟨_, unmap_not_found_events x p d s addr iova len hd hl, rfl⟩
      | some i => exact ⟨_, unmap_found_events x p d s addr iova len i hd hl, rfl⟩
  · intro reg mp s data memhdr mem_idx
    by_cases hl : x.mlx5_mr_lookup_cache s.share_cache.cache memhdr.addr = UINT32_MAX
    · cases reg with
      | none => exact ⟨_, cb_reg_fail_events x config mp s data memhdr mem_idx hl, rfl⟩
      | some mr => exact ⟨_, cb_ok_events x config mr mp s data memhdr mem_idx hl, rfl⟩
    · exact ⟨_, cb_hit_events x config reg mp s data memhdr mem_idx hl, rfl⟩
  · intro event_type addr len sd
    by_cases he : event_type = RTE_MEM_EVENT_FREE
    · refine ⟨.write_lock ::
        ((sd.mem_event_cb_list.map (fun sh =>
          (mem_event_step.free_mr_by_addr sh.ibdev_name addr len,
            ({ sd.mem_event_rwlock with writer := true } : rte_rwlock_t)))).map Prod.fst ++
          [.write_unlock]), ?_, ?_⟩
      · subst he
        simp [mlx5_mr_mem_event_cb, foreach_free_mr_by_addr]
      · show mem_lock_balanced_from true _ = true
        rw [mem_lock_balanced_calls]
        rfl
    · refine ⟨[], ?_, rfl⟩
      unfold mlx5_mr_mem_event_cb
      rw [if_neg he, List.append_nil]

/-- An evaluation of the lock discipline: the unmap of `0x1000` on the example state
is balanced, and a sequence that releases the write lock twice is not. -/
theorem lock_balance_example :
    lock_balanced [.write_lock, .lookup_list 0x1000, .list_remove mr_a, .mr_free mr_a,
      .rebuild_cache, .dev_gen_inc, .write_unlock] = true ∧
    lock_balanced [.write_lock, .lookup_list 0x1000, .write_unlock, .write_unlock] = false ∧
    lock_balanced [.read_lock, .lookup_cache 0x1000] = false ∧
    lock_balanced [.write_lock, .write_lock, .write_unlock] = false := by
  decide

end Mlx5Mr

/-!
# Theorems on the TLV layer
-/

namespace Dwa

/-- The identifier of a 16-bit tag and a 16-bit subtag, without bit operations. -/
theorem tlv_id_eq (tag stag : Nat) (ht : tag < 2 ^ 16) (hs : stag < 2 ^ 16) :
    RTE_DWA_TLV_ID tag stag = tag * 65536 + stag := by
  unfold RTE_DWA_TLV_ID
  have h1 : tag % 2 ^ 32 = tag := Nat.mod_eq_of_lt (by omega)
  rw [h1, Nat.shiftLeft_eq]
  have h2 : tag * 2 ^ 16 % 2 ^ 32 = tag * 2 ^ 16 := Nat.mod_eq_of_lt (by omega)
  rw [h2, Nat.mul_comm tag (2 ^ 16), ← Nat.mul_add_lt_is_or hs tag]
  rw [Nat.mod_eq_of_lt (by omega)]
  omega

/-! ## C15: the TLV ID is a tag/subtag tuple -/

/-- C15.  For all `tag` and `stag` below `2 ^ 16`, `RTE_DWA_TLV_ID(tag, stag)` equals
`tag * 65536 + stag`, its upper 16 bits are `tag` and its lower 16 bits are `stag`,
and the mapping from `(tag, stag)` to the 32-bit ID is injective. -/
theorem tlv_id_tuple (tag stag : Nat) (ht : tag < 2 ^ 16) (hs : stag < 2 ^ 16) :
    RTE_DWA_TLV_ID tag stag = tag * 65536 + stag ∧
    RTE_DWA_TLV_ID tag stag < 2 ^ 32 ∧
    RTE_DWA_TLV_ID tag stag >>> 16 = tag ∧
    RTE_DWA_TLV_ID tag stag % 2 ^ 16 = stag ∧
    (∀ tag2 stag2 : Nat, tag2 < 2 ^ 16 → stag2 < 2 ^ 16 →
      RTE_DWA_TLV_ID tag stag = RTE_DWA_TLV_ID tag2 stag2 → tag = tag2 ∧ stag = stag2) := by
  have h := tlv_id_eq tag stag ht hs
  refine ⟨h, by omega, ?_, by omega, ?_⟩
  · rw [Nat.shiftRight_eq_div_pow, h]; omega
  · intro tag2 stag2 ht2 hs2 heq
    rw [h, tlv_id_eq tag2 stag2 ht2 hs2] at heq
    omega

/-- C15, witness: the identifier of tag `0x3000` and subtag 2 is `0x30000002`. -/
theorem tlv_id_tuple_witness :
    RTE_DWA_TLV_ID RTE_DWA_TAG_PROFILE_BASE 2 = 0x30000002 ∧
    RTE_DWA_TLV_ID RTE_DWA_TAG_PROFILE_BASE 2 = RTE_DWA_TAG_PROFILE_BASE * 65536 + 2 ∧
    RTE_DWA_TLV_ID RTE_DWA_TAG_PROFILE_BASE 2 < 2 ^ 32 ∧
    RTE_DWA_TLV_ID RTE_DWA_TAG_PROFILE_BASE 2 >>> 16 = RTE_DWA_TAG_PROFILE_BASE ∧
    RTE_DWA_TLV_ID RTE_DWA_TAG_PROFILE_BASE 2 % 2 ^ 16 = 2 ∧
    (∀ tag2 stag2 : Nat, tag2 < 2 ^ 16 → stag2 < 2 ^ 16 →
      RTE_DWA_TLV_ID RTE_DWA_TAG_PROFILE_BASE 2 = RTE_DWA_TLV_ID tag2 stag2 →
      RTE_DWA_TAG_PROFILE_BASE = tag2 ∧ 2 = stag2) :=
  ⟨by decide, tlv_id_tuple RTE_DWA_TAG_PROFILE_BASE 2 (by decide) (by decide)⟩

/-! ## C16: the payload of a D2H message -/

/-- C16.  `RTE_DWA_TLV_MK_ID(COMMON, D2H_ERR)` is the value 1, and
`rte_dwa_tlv_d2h_to_msg` returns `NULL` if and only if the TLV pointer is `NULL` or
the TLV's `id` equals that value; for every other TLV it returns the TLV's payload. -/
theorem tlv_d2h_to_msg_null_iff :
    RTE_DWA_TLV_MK_ID_COMMON_D2H_ERR = 1 ∧
    (∀ tlv : Option rte_dwa_tlv,
      rte_dwa_tlv_d2h_to_msg tlv = none ↔ (tlv = none ∨ ∃ t, tlv = some t ∧ t.id = 1)) ∧
    (∀ t : rte_dwa_tlv, t.id ≠ 1 → rte_dwa_tlv_d2h_to_msg (some t) = some t.msg) := by
  have h1 : RTE_DWA_TLV_MK_ID_COMMON_D2H_ERR = 1 := by decide
  refine ⟨h1, ?_, ?_⟩
  · intro tlv
    cases tlv with
    | none => simp [rte_dwa_tlv_d2h_to_msg]
    | some t =>
      unfold rte_dwa_tlv_d2h_to_msg
      rw [h1]
      by_cases hid : t.id = 1
      · simp [hid]
      · simp [hid]
  · intro t hid
    unfold rte_dwa_tlv_d2h_to_msg
    rw [h1]
    simp [hid]

/-- C16, witness: a success response with id 0 yields its payload, an error response
with id 1 yields `NULL`. -/
theorem tlv_d2h_to_msg_null_iff_witness :
    rte_dwa_tlv_d2h_to_msg (some tlv_example) = some tlv_example.msg ∧
    rte_dwa_tlv_d2h_to_msg (some { tlv_example with id := 1 }) = none :=
  ⟨tlv_d2h_to_msg_null_iff.2.2 tlv_example (by decide),
   (tlv_d2h_to_msg_null_iff.2.1 (some { tlv_example with id := 1 })).2
     (Or.inr ⟨{ tlv_example with id := 1 }, rfl, rfl⟩)⟩

/-! ## C17: the postcondition of `rte_dwa_tlv_fill` -/

/-- C17.  For every `id`, `len` and message of at least `len` bytes, after
`rte_dwa_tlv_fill(tlv, id, len, msg)` the TLV's `id` is `id`, its `len` is `len` and
the first `len` payload bytes equal the first `len` bytes of `msg`, the payload
bytes behind them being as before; when `len` is 0 the payload is left untouched and
`msg` is not read (the result is the same for every `msg`). -/
theorem tlv_fill_post (tlv : rte_dwa_tlv) (id len : Nat) (msg : List Nat)
    (hlen : len ≤ msg.length) :
    (rte_dwa_tlv_fill tlv id len msg).id = id ∧
    (rte_dwa_tlv_fill tlv id len msg).len = len ∧
    (rte_dwa_tlv_fill tlv id len msg).msg.take len = msg.take len ∧
    (rte_dwa_tlv_fill tlv id len msg).msg.drop len = tlv.msg.drop len ∧
    (len = 0 → (rte_dwa_tlv_fill tlv id len msg).msg = tlv.msg ∧
      ∀ msg2 : List Nat, rte_dwa_tlv_fill tlv id len msg2 = rte_dwa_tlv_fill tlv id len msg) := by
  unfold rte_dwa_tlv_fill rte_memcpy
  by_cases h0 : len = 0
  · subst h0
    simp
  · simp only [ne_eq, h0, not_false_eq_true, if_true]
    have hl : (List.take len msg).length = len := by
      rw [List.length_take]; omega
    refine ⟨trivial, trivial, ?_, ?_, ?_⟩
    · rw [List.take_append_of_le_length (by omega), List.take_of_length_le (by omega)]
    · rw [List.drop_append_of_le_length (by omega), List.drop_of_length_le (by omega)]
      rfl
    · intro h; exact False.elim h

/-- C17, witness: filling two bytes into the example TLV, whose payload buffer holds
four. -/
theorem tlv_fill_post_witness :
    rte_dwa_tlv_fill tlv_example 0x30000002 2 [1, 2, 3] =
      { id := 0x30000002, len := 2, msg := [1, 2, 0xcc, 0xdd] } ∧
    (rte_dwa_tlv_fill tlv_example 0x30000002 2 [1, 2, 3]).id = 0x30000002 ∧
    (rte_dwa_tlv_fill tlv_example 0x30000002 2 [1, 2, 3]).len = 2 ∧
    (rte_dwa_tlv_fill tlv_example 0x30000002 2 [1, 2, 3]).msg.take 2 = [1, 2, 3].take 2 ∧
    (rte_dwa_tlv_fill tlv_example 0x30000002 2 [1, 2, 3]).msg.drop 2 = tlv_example.msg.drop 2 ∧
    (2 = 0 → (rte_dwa_tlv_fill tlv_example 0x30000002 2 [1, 2, 3]).msg = tlv_example.msg ∧
      ∀ msg2 : List Nat, rte_dwa_tlv_fill tlv_example 0x30000002 2 msg2 =
        rte_dwa_tlv_fill tlv_example 0x30000002 2 [1, 2, 3]) :=
  ⟨by decide, tlv_fill_post tlv_example 0x30000002 2 [1, 2, 3] (by decide)⟩

/-- An evaluation of `rte_dwa_tlv_fill` with a length of 0: the header is written,
the payload is the one the TLV had. -/
theorem tlv_fill_empty_example :
    rte_dwa_tlv_fill tlv_example 0x30000002 0 [1, 2, 3] =
      { id := 0x30000002, len := 0, msg := [0xaa, 0xbb, 0xcc, 0xdd] } := by
  decide

/-! ## C20: the tag and subtag fields of a TLV -/

/-- C20, the code at the failing input.  `tag` and `stag` are members of one union
and read the same storage, so they hold equal values whatever was filled in.  After
`rte_dwa_tlv_fill(tlv, RTE_DWA_TLV_ID(0x400, 1), len, msg)` no platform reads `0x400`
out of `tag` and 1 out of `stag`: a little-endian one reads 1 out of both, a
big-endian one reads `0x400` out of both. -/
theorem tlv_tag_stag_alias :
    (∀ (rd : Nat → Nat) (tlv : rte_dwa_tlv), tlv.tag rd = tlv.stag rd) ∧
    (∀ rd : Nat → Nat,
      ¬ ((rte_dwa_tlv_fill tlv_example (RTE_DWA_TLV_ID RTE_DWA_TAG_PORT_DWA_BASE 1) 0 []).tag rd
          = RTE_DWA_TAG_PORT_DWA_BASE ∧
        (rte_dwa_tlv_fill tlv_example (RTE_DWA_TLV_ID RTE_DWA_TAG_PORT_DWA_BASE 1) 0 []).stag rd
          = 1)) ∧
    (rte_dwa_tlv_fill tlv_example (RTE_DWA_TLV_ID RTE_DWA_TAG_PORT_DWA_BASE 1) 0 []).tag
      uint16_at_0_le = 1 ∧
    (rte_dwa_tlv_fill tlv_example (RTE_DWA_TLV_ID RTE_DWA_TAG_PORT_DWA_BASE 1) 0 []).stag
      uint16_at_0_le = 1 ∧
    (rte_dwa_tlv_fill tlv_example (RTE_DWA_TLV_ID RTE_DWA_TAG_PORT_DWA_BASE 1) 0 []).tag
      uint16_at_0_be = RTE_DWA_TAG_PORT_DWA_BASE ∧
    (rte_dwa_tlv_fill tlv_example (RTE_DWA_TLV_ID RTE_DWA_TAG_PORT_DWA_BASE 1) 0 []).stag
      uint16_at_0_be = RTE_DWA_TAG_PORT_DWA_BASE := by
  refine ⟨fun _ _ => rfl, ?_, by decide, by decide, by decide, by decide⟩
  intro rd ⟨h1, h2⟩
  have h3 : (rte_dwa_tlv_fill tlv_example (RTE_DWA_TLV_ID RTE_DWA_TAG_PORT_DWA_BASE 1) 0 []).tag rd
      = (rte_dwa_tlv_fill tlv_example (RTE_DWA_TLV_ID RTE_DWA_TAG_PORT_DWA_BASE 1) 0 []).stag rd :=
    rfl
  rw [h1, h2] at h3
  exact absurd h3 (by decide)

end Dwa
